import Mathlib

/-!
# Proxy check fan-out: matching, token substitution and splay

A shallow embedding of `backend/schedulerd/proxy_check.go`:

* `matchEntities` filters the entities with the proxy request's expressions,
* `substituteProxyEntityTokens` rewrites a check for one entity,
* `calculateSplayInterval` computes the delay between two publications.

The packages the file imports (`js`, `dynamic`, `agent`, `encoding/json`,
`cron`, the clock) are not part of the embedded file; their functions are
parameters of the definitions below. Logging has no effect on any returned
value and is left out.
-/

namespace Schedulerd

/-! ## Data model -/

/-- Modelled from the spec: the type `types.ProxyRequests`, declared in the
`types` package outside the embedded file, with the two fields the file reads:
the ordered match expressions and the splay coverage, a percentage from 0 to
100 (a `uint32` in the program). -/
structure ProxyRequests where
  EntityAttributes : List String
  SplayCoverage : Nat
  deriving DecidableEq, Repr

/-- Modelled from the spec: the type `types.CheckConfig`, declared in the
`types` package outside the embedded file, with the fields the file reads or
writes, `Name` and `Command` standing for the fields it only carries along.
`Interval` counts seconds (a `uint32` in the program); `ProxyRequests` is the
proxy request of a proxy check, never `nil` where the file is called. -/
structure CheckConfig where
  Name : String
  Command : String
  Interval : Nat
  Cron : String
  ProxyEntityName : String
  ProxyRequests : ProxyRequests
  deriving DecidableEq, Repr

/-- Modelled from the spec: the errors of `js.Evaluate`, declared in the `js`
package outside the embedded file; the file tells `js.SyntaxError` from any
other error value. -/
inductive JsError where
  | SyntaxError (msg : String)
  | Other (msg : String)
  deriving DecidableEq, Repr

/-! ## matchEntities -/

section Matching

variable {Entity Synth : Type}

/-- The inner loop of `matchEntities` (lines 24-52) for one entity: `true`
when every expression was evaluated and the loop ran to its end, `false` as
soon as `continue OUTER` is taken, on an error of either kind or on a
negative result. -/
def matchExpressions (evaluate : String → Synth → Except JsError Bool) (synth : Synth) :
    List String → Bool
  | [] => true
  | expression :: rest =>
    match evaluate expression synth with
    | .error _ => false
    | .ok result => if !result then false else matchExpressions evaluate synth rest

/-- The function `matchEntities` (lines 18-58): the outer loop appends to
`matched` each entity whose inner loop ran to its end. -/
def matchEntities (synthesize : Entity → Synth)
    (evaluate : String → Synth → Except JsError Bool)
    (entities : List Entity) (proxyRequest : ProxyRequests) : List Entity :=
  entities.foldl
    (fun matched entity =>
      if matchExpressions evaluate (synthesize entity) proxyRequest.EntityAttributes then
        matched ++ [entity]
      else matched)
    []

end Matching

/-! ## substituteProxyEntityTokens -/

section Substitution

variable {Entity Synth Bytes : Type}

/-- The function `substituteProxyEntityTokens` (lines 62-85). The result is
the pair the program returns, `none` standing for `nil`. Errors are their
messages; `fmt.Errorf` puts its text before the message of the error of
`json.Unmarshal`. -/
def substituteProxyEntityTokens (synthesize : Entity → Synth)
    (tokenSubstitution : Synth → CheckConfig → Except String Bytes)
    (unmarshal : Bytes → Except String CheckConfig)
    (entityName : Entity → String)
    (entity : Entity) (check : CheckConfig) : Option CheckConfig × Option String :=
  let synthesizedEntity := synthesize entity
  match tokenSubstitution synthesizedEntity check with
  | .error err => (none, some err)
  | .ok checkBytes =>
    match unmarshal checkBytes with
    | .error err => (none, some ("could not unmarshal the check: " ++ err))
    | .ok substitutedCheck =>
      (some { substitutedCheck with ProxyEntityName := entityName entity }, none)

end Substitution

/-! ## float64 arithmetic

A finite `float64` is modelled by the rational number it denotes. Every
arithmetic operation of the program computes the exact result and rounds it to
the nearest value with a 53-bit significand, a tie going to the even
significand (IEEE 754 binary64, the rounding Go uses). The exponent is not
bounded in the model: the values `calculateSplayInterval` rounds are 0 or lie
between `2^-70` and `2^95` (`splayOf_operands_normal`), inside the range of
the normal numbers of binary64, where the two roundings agree. -/

/-- Round to the nearest integer, a tie going to the even one. -/
def roundHalfEven (y : ℚ) : ℤ :=
  let f := ⌊y⌋
  let r := y - f
  if r < 1 / 2 then f
  else if 1 / 2 < r then f + 1
  else if f % 2 = 0 then f else f + 1

/-- The `float64` nearest to the rational `x`: with `2^k ≤ |x| < 2^(k+1)` the
value is scaled by `2^(52-k)` into `[2^52, 2^53)`, rounded to an integer
significand and scaled back. -/
def roundF64 (x : ℚ) : ℚ :=
  if x = 0 then 0
  else
    let e := Int.log 2 |x| - 52
    let m := roundHalfEven (|x| / 2 ^ e)
    if x < 0 then -(m * 2 ^ e) else m * 2 ^ e

/-- The conversion `float64(n)` of an integer. -/
def f64OfInt (n : ℤ) : ℚ := roundF64 n

/-- The `float64` division `a / b`, for a divisor other than zero. -/
def f64Div (a b : ℚ) : ℚ := roundF64 (a / b)

/-- The `float64` product `a * b`. -/
def f64Mul (a b : ℚ) : ℚ := roundF64 (a * b)

/-- Rounding toward zero, the direction of the conversion of a `float64` to
an integer. -/
def truncate (x : ℚ) : ℤ := if 0 ≤ x then ⌊x⌋ else ⌈x⌉

/-! ## Durations and instants -/

/-- The constant `time.Second`, in nanoseconds, the unit of `time.Duration`. -/
def Second : ℤ := 1000000000

/-- The least `time.Duration`, an `int64`. -/
def minDuration : ℤ := -(2 ^ 63)

/-- The greatest `time.Duration`. -/
def maxDuration : ℤ := 2 ^ 63 - 1

/-- The method `Time.Sub` on instants counted in nanoseconds: the difference,
brought to the least or greatest duration when it is beyond it. -/
def timeSub (t u : ℤ) : ℤ :=
  let d := t - u
  if d < minDuration then minDuration
  else if maxDuration < d then maxDuration
  else d

/-- The conversion `time.Duration(x)` of a `float64`: the truncated value when
an `int64` holds it, and otherwise a value the language leaves to the
implementation, given here as `unspecified`. -/
def durationOfF64 (unspecified : ℤ) (x : ℚ) : ℤ :=
  let t := truncate x
  if minDuration ≤ t ∧ t ≤ maxDuration then t else unspecified

/-- Modelled from the spec: the constant `types.DefaultSplayCoverage`, declared
in the `types` package outside the embedded file; the default coverage is 90. -/
def DefaultSplayCoverage : ℚ := 90

/-! ## calculateSplayInterval -/

/-- What `calculateSplayInterval` takes from outside the file: the cron
library (`cron.ParseStandard`, and `Next` of the schedule it returns), the
clock (`Now k` is the instant the `k`-th call of `time.Now()` returns, in
nanoseconds) and the platform's result for a conversion of a `float64` that
no `int64` holds, which may depend on the three numbers converted from. -/
structure Env (Schedule : Type) where
  ParseStandard : String → Except String Schedule
  Next : Schedule → ℤ → ℤ
  Now : ℕ → ℤ
  unspecified : ℤ → ℚ → ℤ → ℤ

section Splay

variable {Schedule : Type}

/-- Lines 90-104 of `calculateSplayInterval`: the period `next`, or the error
of the cron parser. With an interval below `2^32` the product of line 90 is
below `2^63`, and `next + time.Second` is taken where `next` is below 5
seconds, so that no `int64` operation overflows. -/
def splayPeriod (env : Env Schedule) (check : CheckConfig) : Except String ℤ :=
  let next := Second * (check.Interval : ℤ)
  if check.Cron ≠ "" then
    match env.ParseStandard check.Cron with
    | .error err => .error err
    | .ok schedule =>
      let now := env.Now 0
      let thenT := env.Next schedule now
      let next := timeSub thenT now
      if next < 5 * Second then
        let now := env.Now 1 + (next + Second)
        let thenT := env.Next schedule now
        .ok (timeSub thenT now)
      else .ok next
  else .ok next

/-- Lines 105-110 of `calculateSplayInterval`: the delay for a period `next`.
With `numEntities = 0` the division yields an infinity and the conversion of
the product is left to the implementation. -/
def splayOf (unspecified : ℤ → ℚ → ℤ → ℤ) (coverage : ℕ) (next numEntities : ℤ) : ℤ :=
  let splayCoverage := f64OfInt coverage
  let splayCoverage := if splayCoverage = 0 then DefaultSplayCoverage else splayCoverage
  if numEntities = 0 then unspecified next splayCoverage numEntities
  else
    let timeSlice := f64Div (f64Div splayCoverage 100) (f64OfInt numEntities)
    durationOfF64 (unspecified next splayCoverage numEntities) (f64Mul (f64OfInt next) timeSlice)

/-- The function `calculateSplayInterval` (lines 89-112): the pair of the
delay and the error, `none` standing for `nil`. -/
def calculateSplayInterval (env : Env Schedule) (check : CheckConfig) (numEntities : ℤ) :
    ℤ × Option String :=
  match splayPeriod env check with
  | .error err => (0, some err)
  | .ok next => (splayOf env.unspecified check.ProxyRequests.SplayCoverage next numEntities, none)

end Splay

/-- The coverage `calculateSplayInterval` computes with: the check's coverage,
or the default when that is 0. -/
def coverageOrDefault (c : ℕ) : ℚ := if c = 0 then DefaultSplayCoverage else c

/-- The `float64` product of line 110, `float64(next) * timeSlice`, for the
coverage `c`: two rounded divisions and one rounded product. -/
def splayProduct (c : ℚ) (next numEntities : ℤ) : ℚ :=
  f64Mul (f64OfInt next) (f64Div (f64Div c 100) (f64OfInt numEntities))

/-- Modelled from the spec: `Next` of the schedule the cron library, outside
the embedded file, returns for the expression `* * * * *`, a trigger at every
whole minute: the first whole minute strictly after the instant `t`, in
nanoseconds. -/
def everyMinuteNext (t : ℤ) : ℤ := (t / (60 * Second) + 1) * (60 * Second)

/-- Whether a result of `js.Evaluate` is `(true, nil)`. -/
def evaluatesTrue (r : Except JsError Bool) : Bool :=
  match r with
  | .ok true => true
  | _ => false

/-- The condition of the specification on one entity: every expression of the
list evaluates to `true` without error against the synthesized entity. -/
def satisfiesAll {Synth : Type} (evaluate : String → Synth → Except JsError Bool)
    (synth : Synth) (L : List String) : Bool :=
  L.all (fun x => evaluatesTrue (evaluate x synth))

/-- The delay of the specification in exact arithmetic: the period of
`interval` seconds times `(coverage / 100) / numEntities`, truncated to whole
nanoseconds. -/
def exactSplay (interval coverage : ℕ) (numEntities : ℤ) : ℤ :=
  truncate (((Second * (interval : ℤ) : ℤ) : ℚ) * (coverageOrDefault coverage / 100 / numEntities))

/-- The check with its interval replaced. -/
def withInterval (check : CheckConfig) (interval : ℕ) : CheckConfig :=
  { check with Interval := interval }

/-- The check with its splay coverage replaced. -/
def withCoverage (check : CheckConfig) (coverage : ℕ) : CheckConfig :=
  { check with ProxyRequests := { check.ProxyRequests with SplayCoverage := coverage } }

/-- The exact product of the specification for a check and a number of
entities: the period of `Interval` seconds times `(coverage / 100) /
numEntities`, before any rounding. -/
def exactProduct (check : CheckConfig) (numEntities : ℤ) : ℚ :=
  ((Second * (check.Interval : ℤ) : ℤ) : ℚ)
    * (coverageOrDefault check.ProxyRequests.SplayCoverage / 100 / numEntities)

/-! ## Concrete instances

Small instances of the parameters, at which the definitions are evaluated. -/

/-- An evaluator over entities that are their own names: the expression
`"never"` is false, `"broken"` has a syntax error, an expression `"not-" ++ n`
fails at run time on the entity `n`, and any other expression is true. -/
def sampleEvaluate (expression : String) (synth : String) : Except JsError Bool :=
  if expression = "broken" then .error (.SyntaxError "unexpected token")
  else if expression = "not-" ++ synth then .error (.Other "undefined attribute")
  else if expression = "never" then .ok false
  else .ok true

/-- An interval-based check with the given interval and splay coverage. -/
def sampleCheck (interval coverage : ℕ) : CheckConfig :=
  { Name := "check", Command := "true", Interval := interval, Cron := "",
    ProxyEntityName := "",
    ProxyRequests := { EntityAttributes := [], SplayCoverage := coverage } }

/-- A cron-based check with the given expression. -/
def cronCheck (cron : String) : CheckConfig :=
  { Name := "check", Command := "true", Interval := 0, Cron := cron,
    ProxyEntityName := "",
    ProxyRequests := { EntityAttributes := [], SplayCoverage := 0 } }

/-- An environment whose cron library knows the expression `* * * * *` only,
whose clock returns `t0` at the first call and `t1` afterwards. -/
def minuteEnv (t0 t1 : ℤ) : Env Unit :=
  { ParseStandard := fun s =>
      if s = "* * * * *" then .ok () else .error "expected exactly 5 fields"
    Next := fun _ t => everyMinuteNext t
    Now := fun k => if k = 0 then t0 else t1
    unspecified := fun _ _ _ => minDuration }

/-! ## Lemmas on matching -/

section MatchingLemmas

variable {Entity Synth : Type}

/-- The inner loop runs to its end exactly when every expression evaluates
to `true` without error. -/
theorem matchExpressions_iff (evaluate : String → Synth → Except JsError Bool)
    (synth : Synth) (L : List String) :
    matchExpressions evaluate synth L = true ↔
      ∀ x ∈ L, evaluate x synth = Except.ok true := by
  induction L with
  | nil => simp [matchExpressions]
  | cons x rest ih =>
    unfold matchExpressions
    cases h : evaluate x synth with
    | error err => simp [h]
    | ok result =>
      cases result with
      | false => simp [h]
      | true => simpa [h] using ih

/-- The accumulating loop is the accumulator followed by a filter. -/
theorem foldl_append_filter (p : Entity → Bool) (entities acc : List Entity) :
    entities.foldl (fun matched entity => if p entity then matched ++ [entity] else matched) acc
      = acc ++ entities.filter p := by
  induction entities generalizing acc with
  | nil => simp
  | cons e rest ih =>
    by_cases h : p e
    · simp [List.foldl_cons, h, ih]
    · simp [List.foldl_cons, h, ih]

/-- The loop of `matchEntities` is a filter of the entity list. -/
theorem matchEntities_eq_filter (synthesize : Entity → Synth)
    (evaluate : String → Synth → Except JsError Bool)
    (entities : List Entity) (proxyRequest : ProxyRequests) :
    matchEntities synthesize evaluate entities proxyRequest
      = entities.filter
          (fun e => matchExpressions evaluate (synthesize e) proxyRequest.EntityAttributes) := by
  unfold matchEntities
  rw [foldl_append_filter
    (fun e => matchExpressions evaluate (synthesize e) proxyRequest.EntityAttributes)]
  simp

end MatchingLemmas

/-! ## Lemmas on float64 rounding -/

theorem roundHalfEven_floor_le (y : ℚ) : ⌊y⌋ ≤ roundHalfEven y := by
  unfold roundHalfEven
  simp only
  split_ifs <;> omega

theorem roundHalfEven_le_floor_add_one (y : ℚ) : roundHalfEven y ≤ ⌊y⌋ + 1 := by
  unfold roundHalfEven
  simp only
  split_ifs <;> omega

theorem roundHalfEven_intCast (n : ℤ) : roundHalfEven (n : ℚ) = n := by
  unfold roundHalfEven
  simp

theorem roundHalfEven_sub_le (y : ℚ) : |(roundHalfEven y : ℚ) - y| ≤ 1 / 2 := by
  have h1 := Int.floor_le y
  have h2 := Int.lt_floor_add_one y
  unfold roundHalfEven
  simp only
  rw [abs_le]
  split_ifs with ha hb hc
  · constructor <;> linarith
  · push_cast; constructor <;> linarith
  · constructor <;> linarith
  · push_cast; constructor <;> linarith

theorem roundHalfEven_mono {y z : ℚ} (h : y ≤ z) : roundHalfEven y ≤ roundHalfEven z := by
  have hf : ⌊y⌋ ≤ ⌊z⌋ := Int.floor_le_floor h
  rcases hf.lt_or_eq with hlt | heq
  · calc roundHalfEven y ≤ ⌊y⌋ + 1 := roundHalfEven_le_floor_add_one y
      _ ≤ ⌊z⌋ := hlt
      _ ≤ roundHalfEven z := roundHalfEven_floor_le z
  · unfold roundHalfEven
    simp only
    rw [heq]
    have hr : y - ⌊z⌋ ≤ z - ⌊z⌋ := by linarith
    split_ifs <;> first | omega | (exfalso; linarith)

theorem roundHalfEven_eq_of_near {y : ℚ} {m : ℤ} (h : |y - m| < 1 / 2) :
    roundHalfEven y = m := by
  have h1 := roundHalfEven_sub_le y
  rw [abs_lt] at h
  rw [abs_le] at h1
  have h2 : ((roundHalfEven y : ℤ) : ℚ) - m < 1 := by linarith
  have h3 : (m : ℚ) - (roundHalfEven y : ℤ) < 1 := by linarith
  have h4 : roundHalfEven y - m < 1 := by exact_mod_cast h2
  have h5 : m - roundHalfEven y < 1 := by exact_mod_cast h3
  omega

theorem two_zpow_pos (e : ℤ) : (0 : ℚ) < 2 ^ e := zpow_pos (by norm_num) e

theorem log_two_eq_of_bounds {x : ℚ} {j : ℤ} (h1 : (2 : ℚ) ^ j ≤ x) (h2 : x < 2 ^ (j + 1)) :
    Int.log 2 x = j := by
  have hx : 0 < x := lt_of_lt_of_le (two_zpow_pos j) h1
  have hb : 1 < (2 : ℕ) := by norm_num
  have a1 : j ≤ Int.log 2 x := by
    rw [← Int.zpow_le_iff_le_log hb hx]
    exact_mod_cast h1
  have a2 : Int.log 2 x < j + 1 := by
    rw [← Int.lt_zpow_iff_log_lt hb hx]
    exact_mod_cast h2
  omega

theorem zpow_log_two_le {x : ℚ} (hx : 0 < x) : (2 : ℚ) ^ Int.log 2 x ≤ x := by
  have := Int.zpow_log_le_self (b := 2) (by norm_num) hx
  exact_mod_cast this

theorem lt_zpow_log_two_succ (x : ℚ) : x < (2 : ℚ) ^ (Int.log 2 x + 1) := by
  have := Int.lt_zpow_succ_log_self (b := 2) (by norm_num) x
  exact_mod_cast this

theorem roundF64_zero : roundF64 0 = 0 := by simp [roundF64]

theorem roundF64_of_pos {x : ℚ} (hx : 0 < x) :
    roundF64 x = roundHalfEven (x / 2 ^ (Int.log 2 x - 52)) * 2 ^ (Int.log 2 x - 52) := by
  unfold roundF64
  simp only [hx.ne', if_false, not_lt.mpr hx.le, abs_of_pos hx]

theorem roundF64_neg (x : ℚ) : roundF64 (-x) = -roundF64 x := by
  rcases lt_trichotomy x 0 with h | h | h
  · have h' : 0 < -x := by linarith
    unfold roundF64
    simp only [h.ne, h'.ne', if_false, not_lt.mpr h'.le, h, if_true, abs_neg, neg_neg]
  · subst h; simp [roundF64_zero]
  · have h' : -x < 0 := by linarith
    unfold roundF64
    simp only [h.ne', h'.ne, if_false, not_lt.mpr h.le, h', if_true, abs_neg]

/-- The scaled significand of a positive value lies in `[2^52, 2^53)`. -/
theorem scaled_bounds {x : ℚ} (hx : 0 < x) :
    (2 : ℚ) ^ (52 : ℤ) ≤ x / 2 ^ (Int.log 2 x - 52) ∧
      x / 2 ^ (Int.log 2 x - 52) < (2 : ℚ) ^ (53 : ℤ) := by
  have h1 := zpow_log_two_le hx
  have h2 := lt_zpow_log_two_succ x
  have hp := two_zpow_pos (Int.log 2 x - 52)
  constructor
  · rw [le_div_iff₀ hp, ← zpow_add₀ (by norm_num : (2 : ℚ) ≠ 0)]
    simpa using h1
  · rw [div_lt_iff₀ hp, ← zpow_add₀ (by norm_num : (2 : ℚ) ≠ 0)]
    have : (53 : ℤ) + (Int.log 2 x - 52) = Int.log 2 x + 1 := by ring
    rw [this]; exact h2

/-- Evaluation of `roundF64` from a significand and an exponent. -/
theorem roundF64_of_scaled {x : ℚ} {m e : ℤ} (h1 : (2 : ℚ) ^ (52 : ℤ) ≤ x / 2 ^ e)
    (h2 : x / 2 ^ e < (2 : ℚ) ^ (53 : ℤ)) (h3 : |x / 2 ^ e - m| < 1 / 2) :
    roundF64 x = m * 2 ^ e := by
  have hp := two_zpow_pos e
  have hx : 0 < x := by
    have : 0 < x / 2 ^ e := lt_of_lt_of_le (two_zpow_pos 52) h1
    exact (div_pos_iff_of_pos_right hp).mp this
  have hlog : Int.log 2 x = e + 52 := by
    apply log_two_eq_of_bounds
    · rw [zpow_add₀ (by norm_num : (2 : ℚ) ≠ 0), mul_comm]
      exact (le_div_iff₀ hp).mp h1
    · have : e + 52 + 1 = 53 + e := by ring
      rw [this, zpow_add₀ (by norm_num : (2 : ℚ) ≠ 0)]
      exact (div_lt_iff₀ hp).mp h2
  rw [roundF64_of_pos hx, hlog]
  have : e + 52 - 52 = e := by ring
  rw [this, roundHalfEven_eq_of_near h3]

/-- A positive value and its rounding lie in the same closed binade. -/
theorem roundF64_binade {x : ℚ} (hx : 0 < x) :
    (2 : ℚ) ^ Int.log 2 x ≤ roundF64 x ∧ roundF64 x ≤ (2 : ℚ) ^ (Int.log 2 x + 1) := by
  obtain ⟨h1, h2⟩ := scaled_bounds hx
  have hp := two_zpow_pos (Int.log 2 x - 52)
  rw [roundF64_of_pos hx]
  have e1 : (2 : ℚ) ^ (52 : ℤ) = (((2 : ℤ) ^ 52 : ℤ) : ℚ) := by norm_num
  have e2 : (2 : ℚ) ^ (53 : ℤ) = (((2 : ℤ) ^ 53 : ℤ) : ℚ) := by norm_num
  have m1 : (2 : ℤ) ^ 52 ≤ roundHalfEven (x / 2 ^ (Int.log 2 x - 52)) := by
    have := roundHalfEven_mono (e1 ▸ h1)
    rwa [roundHalfEven_intCast] at this
  have m2 : roundHalfEven (x / 2 ^ (Int.log 2 x - 52)) ≤ (2 : ℤ) ^ 53 := by
    have := roundHalfEven_mono (e2 ▸ h2).le
    rwa [roundHalfEven_intCast] at this
  have m1' : (2 : ℚ) ^ (52 : ℤ) ≤ (roundHalfEven (x / 2 ^ (Int.log 2 x - 52)) : ℚ) := by
    rw [e1]; exact_mod_cast m1
  have m2' : (roundHalfEven (x / 2 ^ (Int.log 2 x - 52)) : ℚ) ≤ (2 : ℚ) ^ (53 : ℤ) := by
    rw [e2]; exact_mod_cast m2
  constructor
  · calc (2 : ℚ) ^ Int.log 2 x = 2 ^ (52 : ℤ) * 2 ^ (Int.log 2 x - 52) := by
          rw [← zpow_add₀ (by norm_num : (2 : ℚ) ≠ 0)]; congr 1; ring
      _ ≤ _ := mul_le_mul_of_nonneg_right m1' hp.le
  · calc _ ≤ (2 : ℚ) ^ (53 : ℤ) * 2 ^ (Int.log 2 x - 52) := mul_le_mul_of_nonneg_right m2' hp.le
      _ = (2 : ℚ) ^ (Int.log 2 x + 1) := by
          rw [← zpow_add₀ (by norm_num : (2 : ℚ) ≠ 0)]; congr 1; ring

theorem roundF64_pos {x : ℚ} (hx : 0 < x) : 0 < roundF64 x :=
  lt_of_lt_of_le (two_zpow_pos _) (roundF64_binade hx).1

theorem roundF64_mono_of_pos {x y : ℚ} (hx : 0 < x) (h : x ≤ y) : roundF64 x ≤ roundF64 y := by
  have hy : 0 < y := lt_of_lt_of_le hx h
  have hl : Int.log 2 x ≤ Int.log 2 y := Int.log_mono_right hx h
  rcases hl.lt_or_eq with hlt | heq
  · calc roundF64 x ≤ (2 : ℚ) ^ (Int.log 2 x + 1) := (roundF64_binade hx).2
      _ ≤ (2 : ℚ) ^ Int.log 2 y := zpow_le_zpow_right₀ (by norm_num) hlt
      _ ≤ roundF64 y := (roundF64_binade hy).1
  · rw [roundF64_of_pos hx, roundF64_of_pos hy, heq]
    have hp := two_zpow_pos (Int.log 2 y - 52)
    apply mul_le_mul_of_nonneg_right _ hp.le
    have : x / 2 ^ (Int.log 2 y - 52) ≤ y / 2 ^ (Int.log 2 y - 52) :=
      div_le_div_of_nonneg_right h hp.le
    exact_mod_cast roundHalfEven_mono this

theorem roundF64_mono {x y : ℚ} (h : x ≤ y) : roundF64 x ≤ roundF64 y := by
  rcases lt_trichotomy 0 x with hx | hx | hx
  · exact roundF64_mono_of_pos hx h
  · subst hx
    rcases h.lt_or_eq with hy | hy
    · rw [roundF64_zero]; exact (roundF64_pos hy).le
    · rw [← hy]
  · rcases lt_trichotomy 0 y with hy | hy | hy
    · have h1 : roundF64 x < 0 := by
        have := roundF64_pos (x := -x) (by linarith)
        rw [roundF64_neg] at this; linarith
      exact (h1.trans (roundF64_pos hy)).le
    · subst hy
      have := roundF64_pos (x := -x) (by linarith)
      rw [roundF64_neg] at this
      rw [roundF64_zero]; linarith
    · have := roundF64_mono_of_pos (x := -y) (y := -x) (by linarith) (by linarith)
      rw [roundF64_neg, roundF64_neg] at this
      linarith

/-- The relative error of one rounding is at most `2^-53`. -/
theorem roundF64_error {x : ℚ} (hx : 0 < x) : |roundF64 x - x| ≤ x * 2 ^ (-53 : ℤ) := by
  have hp := two_zpow_pos (Int.log 2 x - 52)
  have h1 := zpow_log_two_le hx
  have hr := roundHalfEven_sub_le (x / 2 ^ (Int.log 2 x - 52))
  rw [roundF64_of_pos hx]
  have e : (roundHalfEven (x / 2 ^ (Int.log 2 x - 52)) : ℚ) * 2 ^ (Int.log 2 x - 52) - x
      = ((roundHalfEven (x / 2 ^ (Int.log 2 x - 52)) : ℚ) - x / 2 ^ (Int.log 2 x - 52))
          * 2 ^ (Int.log 2 x - 52) := by
    field_simp
  rw [e, abs_mul, abs_of_pos hp]
  calc _ ≤ 1 / 2 * (2 : ℚ) ^ (Int.log 2 x - 52) := mul_le_mul_of_nonneg_right hr hp.le
    _ = 2 ^ Int.log 2 x * 2 ^ (-53 : ℤ) := by
        rw [← zpow_add₀ (by norm_num : (2 : ℚ) ≠ 0)]
        have : Int.log 2 x + -53 = (Int.log 2 x - 52) + (-1) := by ring
        rw [this, zpow_add₀ (by norm_num : (2 : ℚ) ≠ 0)]
        norm_num; ring
    _ ≤ x * 2 ^ (-53 : ℤ) := mul_le_mul_of_nonneg_right h1 (two_zpow_pos _).le

/-- Evaluation of `roundF64` at a value given with its rounded significand. -/
theorem roundF64_eval {x y : ℚ} (m e : ℤ) (hy : y = m * 2 ^ e)
    (h1 : (2 : ℚ) ^ (52 : ℤ) ≤ x / 2 ^ e) (h2 : x / 2 ^ e < (2 : ℚ) ^ (53 : ℤ))
    (h3 : |x / 2 ^ e - m| < 1 / 2) : roundF64 x = y := by
  rw [hy]; exact roundF64_of_scaled h1 h2 h3

theorem truncate_eq_of {p : ℚ} {d : ℤ} (h0 : 0 ≤ p) (h1 : (d : ℚ) ≤ p) (h2 : p < d + 1) :
    truncate p = d := by
  unfold truncate
  rw [if_pos h0, Int.floor_eq_iff]
  exact ⟨h1, h2⟩

/-- Evaluation of `splayOf` from the values of its roundings, in the order
the program computes them. -/
theorem splayOf_eval (u : ℤ → ℚ → ℤ → ℤ) (c : ℕ) (next n : ℤ) (sc a fn ts fx p : ℚ) (d : ℤ)
    (h0 : (if f64OfInt c = 0 then DefaultSplayCoverage else f64OfInt c) = sc)
    (hn : n ≠ 0)
    (ha : roundF64 (sc / 100) = a) (hfn : roundF64 n = fn) (hts : roundF64 (a / fn) = ts)
    (hfx : roundF64 next = fx) (hp : roundF64 (fx * ts) = p) (hd : truncate p = d)
    (hr : minDuration ≤ d ∧ d ≤ maxDuration) : splayOf u c next n = d := by
  unfold splayOf
  simp only [f64OfInt] at h0
  simp only [f64OfInt, h0, if_neg hn, f64Div, f64Mul, f64OfInt, ha, hfn, hts, hfx, hp, durationOfF64, hd,
    if_pos hr]

theorem roundF64_nonneg {x : ℚ} (hx : 0 ≤ x) : 0 ≤ roundF64 x := by
  have := roundF64_mono hx
  rwa [roundF64_zero] at this

theorem roundF64_eq_zero_iff {x : ℚ} : roundF64 x = 0 ↔ x = 0 := by
  constructor
  · intro h
    rcases lt_trichotomy 0 x with hx | hx | hx
    · have := roundF64_pos hx; linarith
    · exact hx.symm
    · have := roundF64_pos (x := -x) (by linarith)
      rw [roundF64_neg] at this; linarith
  · rintro rfl; exact roundF64_zero

/-- A value with a significand below `2^53` is a `float64`: rounding keeps it. -/
theorem roundF64_exact (m : ℕ) (j : ℤ) (hm : m < 2 ^ 53) :
    roundF64 ((m : ℚ) * 2 ^ j) = (m : ℚ) * 2 ^ j := by
  rcases Nat.eq_zero_or_pos m with h | h
  · subst h; simp [roundF64_zero]
  · have hk1 : 2 ^ Nat.log 2 m ≤ m := Nat.pow_log_le_self 2 h.ne'
    have hk2 : m < 2 ^ (Nat.log 2 m + 1) := Nat.lt_pow_succ_log_self (by norm_num) m
    have hk3 : Nat.log 2 m < 53 := Nat.log_lt_of_lt_pow h.ne' hm
    obtain ⟨d, hd⟩ : ∃ d : ℕ, Nat.log 2 m + d = 52 := ⟨52 - Nat.log 2 m, by omega⟩
    have two_ne : (2 : ℚ) ≠ 0 := by norm_num
    have hs : (m : ℚ) * 2 ^ j / 2 ^ (j - (d : ℤ)) = ((m * 2 ^ d : ℕ) : ℤ) := by
      rw [div_eq_iff (two_zpow_pos _).ne']
      push_cast
      rw [mul_assoc, ← zpow_natCast, ← zpow_add₀ two_ne]
      congr 2; ring
    have b1 : 2 ^ 52 ≤ m * 2 ^ d := by
      calc 2 ^ 52 = 2 ^ Nat.log 2 m * 2 ^ d := by rw [← pow_add, hd]
        _ ≤ m * 2 ^ d := Nat.mul_le_mul_right _ hk1
    have b2 : m * 2 ^ d < 2 ^ 53 := by
      calc m * 2 ^ d < 2 ^ (Nat.log 2 m + 1) * 2 ^ d :=
            Nat.mul_lt_mul_of_pos_right hk2 (by positivity)
        _ = 2 ^ 53 := by rw [← pow_add]; congr 1; omega
    have h1 : (2 : ℚ) ^ (52 : ℤ) ≤ (m : ℚ) * 2 ^ j / 2 ^ (j - (d : ℤ)) := by
      rw [hs]
      have : ((2 ^ 52 : ℕ) : ℚ) ≤ ((m * 2 ^ d : ℕ) : ℚ) := by exact_mod_cast b1
      calc (2 : ℚ) ^ (52 : ℤ) = ((2 ^ 52 : ℕ) : ℚ) := by norm_num
        _ ≤ _ := by exact_mod_cast this
    have h2 : (m : ℚ) * 2 ^ j / 2 ^ (j - (d : ℤ)) < (2 : ℚ) ^ (53 : ℤ) := by
      rw [hs]
      have : ((m * 2 ^ d : ℕ) : ℚ) < ((2 ^ 53 : ℕ) : ℚ) := by exact_mod_cast b2
      calc (((m * 2 ^ d : ℕ) : ℤ) : ℚ) = ((m * 2 ^ d : ℕ) : ℚ) := by push_cast; ring
        _ < ((2 ^ 53 : ℕ) : ℚ) := this
        _ = (2 : ℚ) ^ (53 : ℤ) := by norm_num
    have h3 : |(m : ℚ) * 2 ^ j / 2 ^ (j - (d : ℤ)) - (((m * 2 ^ d : ℕ) : ℤ) : ℚ)| < 1 / 2 := by
      rw [hs]; simp
    rw [roundF64_of_scaled h1 h2 h3]
    push_cast
    rw [mul_assoc, ← zpow_natCast, ← zpow_add₀ two_ne]
    congr 2; ring

theorem roundF64_natCast (n : ℕ) (h : n < 2 ^ 53) : roundF64 (n : ℚ) = n := by
  have := roundF64_exact n 0 h
  simpa using this

/-- Halving commutes with rounding. -/
theorem roundF64_half (x : ℚ) : roundF64 (x / 2) = roundF64 x / 2 := by
  have two_ne : (2 : ℚ) ≠ 0 := by norm_num
  have key : ∀ y : ℚ, 0 < y → roundF64 (y / 2) = roundF64 y / 2 := by
    intro y hy
    have hy2 : 0 < y / 2 := by positivity
    have hl : Int.log 2 (y / 2) = Int.log 2 y - 1 := by
      apply log_two_eq_of_bounds
      · have := zpow_log_two_le hy
        rw [zpow_sub₀ two_ne, zpow_one]
        linarith
      · have := lt_zpow_log_two_succ y
        rw [zpow_add₀ two_ne, zpow_one] at this
        have e : Int.log 2 y - 1 + 1 = Int.log 2 y := by ring
        rw [e]; linarith
    rw [roundF64_of_pos hy2, roundF64_of_pos hy, hl]
    have e1 : Int.log 2 y - 1 - 52 = (Int.log 2 y - 52) - 1 := by ring
    rw [e1, zpow_sub₀ two_ne, zpow_one]
    have hp := two_zpow_pos (Int.log 2 y - 52)
    have e2 : y / 2 / (2 ^ (Int.log 2 y - 52) / 2) = y / 2 ^ (Int.log 2 y - 52) := by
      field_simp
    rw [e2]; ring
  rcases lt_trichotomy 0 x with hx | hx | hx
  · exact key x hx
  · subst hx; simp [roundF64_zero]
  · have := key (-x) (by linarith)
    rw [neg_div, roundF64_neg, roundF64_neg] at this
    linarith

/-- One rounding of a non-negative value changes it by a factor within
`1 ± 2^-53`. -/
theorem roundF64_rel {x : ℚ} (hx : 0 ≤ x) :
    x * (1 - 2 ^ (-53 : ℤ)) ≤ roundF64 x ∧ roundF64 x ≤ x * (1 + 2 ^ (-53 : ℤ)) := by
  rcases hx.lt_or_eq with h | h
  · have := roundF64_error h
    rw [abs_le] at this
    constructor <;> linarith
  · subst h; simp [roundF64_zero]

theorem truncate_mono {x y : ℚ} (h : x ≤ y) : truncate x ≤ truncate y := by
  unfold truncate
  split_ifs with h1 h2 h2
  · exact Int.floor_le_floor h
  · exfalso; linarith
  · have a1 : ⌈x⌉ ≤ 0 := by
      rw [Int.ceil_le]; push_cast; linarith
    have a2 : 0 ≤ ⌊y⌋ := Int.floor_nonneg.mpr h2
    omega
  · exact Int.ceil_le_ceil h

theorem truncate_of_nonneg {x : ℚ} (h : 0 ≤ x) : truncate x = ⌊x⌋ := by
  unfold truncate; rw [if_pos h]

/-! ## Lemmas on the splay computation -/

theorem roundF64_one : roundF64 1 = 1 := by
  have := roundF64_natCast 1 (by norm_num)
  simpa using this

theorem roundF64_two_pow_62 : roundF64 (2 ^ 62) = 2 ^ 62 := by
  have e := roundF64_exact 1 62 (by norm_num)
  have h : (2 : ℚ) ^ (62 : ℤ) = 2 ^ 62 := by norm_num
  rw [Nat.cast_one, one_mul, h] at e
  exact e

theorem coverageOrDefault_pos (c : ℕ) : 0 < coverageOrDefault c := by
  unfold coverageOrDefault DefaultSplayCoverage
  split_ifs with h
  · norm_num
  · have : 0 < c := Nat.pos_of_ne_zero h
    exact_mod_cast this

theorem coverageOrDefault_le {c : ℕ} (h : c ≤ 100) : coverageOrDefault c ≤ 100 := by
  unfold coverageOrDefault DefaultSplayCoverage
  split_ifs
  · norm_num
  · exact_mod_cast h

/-- The coverage the program selects on lines 105-108 is `coverageOrDefault`. -/
theorem selected_coverage {c : ℕ} (h : c < 2 ^ 53) :
    (if f64OfInt (c : ℤ) = 0 then DefaultSplayCoverage else f64OfInt (c : ℤ))
      = coverageOrDefault c := by
  have e : f64OfInt (c : ℤ) = c := by
    unfold f64OfInt
    have := roundF64_natCast c h
    exact_mod_cast this
  rw [e]
  unfold coverageOrDefault
  simp

/-- For at least one entity the delay is the conversion of `splayProduct`. -/
theorem splayOf_eq (u : ℤ → ℚ → ℤ → ℤ) {c : ℕ} (hc : c < 2 ^ 53) (next : ℤ) {n : ℤ}
    (hn : n ≠ 0) :
    splayOf u c next n
      = durationOfF64 (u next (coverageOrDefault c) n) (splayProduct (coverageOrDefault c) next n) := by
  unfold splayOf splayProduct
  simp only [selected_coverage hc, if_neg hn]

/-- The time slice lies between 0 and 1 for a coverage of at most 100. -/
theorem timeSlice_bounds {c : ℚ} (h0 : 0 ≤ c) (h1 : c ≤ 100) {n : ℤ} (hn : 1 ≤ n) :
    0 ≤ f64Div (f64Div c 100) (f64OfInt n) ∧ f64Div (f64Div c 100) (f64OfInt n) ≤ 1 := by
  unfold f64Div f64OfInt
  have a0 : 0 ≤ roundF64 (c / 100) := roundF64_nonneg (by positivity)
  have a1 : roundF64 (c / 100) ≤ 1 := by
    have := roundF64_mono (show c / 100 ≤ 1 by linarith)
    rwa [roundF64_one] at this
  have n1 : 1 ≤ roundF64 (n : ℚ) := by
    have := roundF64_mono (show (1 : ℚ) ≤ n by exact_mod_cast hn)
    rwa [roundF64_one] at this
  have q0 : 0 ≤ roundF64 (c / 100) / roundF64 (n : ℚ) := div_nonneg a0 (by linarith)
  have q1 : roundF64 (c / 100) / roundF64 (n : ℚ) ≤ 1 := by
    rw [div_le_one (by linarith)]; linarith
  refine ⟨roundF64_nonneg q0, ?_⟩
  have := roundF64_mono q1
  rwa [roundF64_one] at this

/-- The product lies between 0 and `2^62` when the period does. -/
theorem splayProduct_bounds {c : ℚ} (h0 : 0 ≤ c) (h1 : c ≤ 100) {next : ℤ} (hx0 : 0 ≤ next)
    (hx1 : next ≤ 2 ^ 62) {n : ℤ} (hn : 1 ≤ n) :
    0 ≤ splayProduct c next n ∧ splayProduct c next n ≤ 2 ^ 62 := by
  obtain ⟨t0, t1⟩ := timeSlice_bounds h0 h1 hn
  unfold splayProduct f64Mul
  have x0 : 0 ≤ f64OfInt next := roundF64_nonneg (by exact_mod_cast hx0)
  have x1 : f64OfInt next ≤ 2 ^ 62 := by
    have := roundF64_mono (show (next : ℚ) ≤ 2 ^ 62 by exact_mod_cast hx1)
    rwa [roundF64_two_pow_62] at this
  have p0 : 0 ≤ f64OfInt next * f64Div (f64Div c 100) (f64OfInt n) := mul_nonneg x0 t0
  have p1 : f64OfInt next * f64Div (f64Div c 100) (f64OfInt n) ≤ 2 ^ 62 := by
    calc _ ≤ f64OfInt next * 1 := mul_le_mul_of_nonneg_left t1 x0
      _ ≤ 2 ^ 62 := by rw [mul_one]; exact x1
  refine ⟨roundF64_nonneg p0, ?_⟩
  have := roundF64_mono p1
  rwa [roundF64_two_pow_62] at this

/-- For a well-formed check and at least one entity the delay is the product
rounded down; no conversion is left to the implementation. -/
theorem splayOf_floor (u : ℤ → ℚ → ℤ → ℤ) {c : ℕ} (hc : c ≤ 100) {next : ℤ} (hx0 : 0 ≤ next)
    (hx1 : next ≤ 2 ^ 62) {n : ℤ} (hn : 1 ≤ n) :
    splayOf u c next n = ⌊splayProduct (coverageOrDefault c) next n⌋ := by
  obtain ⟨p0, p1⟩ := splayProduct_bounds (coverageOrDefault_pos c).le (coverageOrDefault_le hc)
    hx0 hx1 hn
  rw [splayOf_eq u (by omega) next (by omega)]
  unfold durationOfF64
  simp only [truncate_of_nonneg p0]
  have f0 : 0 ≤ ⌊splayProduct (coverageOrDefault c) next n⌋ := Int.floor_nonneg.mpr p0
  have f1 : ⌊splayProduct (coverageOrDefault c) next n⌋ ≤ 2 ^ 62 := by
    have := Int.floor_le_floor p1
    have e : ⌊((2 : ℚ) ^ 62)⌋ = 2 ^ 62 := by
      have : ((2 : ℚ) ^ 62) = (((2 : ℤ) ^ 62 : ℤ) : ℚ) := by norm_num
      rw [this, Int.floor_intCast]
    rwa [e] at this
  rw [if_pos]
  unfold minDuration maxDuration
  constructor <;> omega

/-- The period of an interval-based check fits well inside a duration. -/
theorem interval_period_bounds {i : ℕ} (h : i < 2 ^ 32) :
    0 ≤ Second * (i : ℤ) ∧ Second * (i : ℤ) ≤ 2 ^ 62 := by
  unfold Second
  constructor <;> omega

/-- The product does not grow with the number of entities. -/
theorem splayProduct_antitone {c : ℚ} (h0 : 0 ≤ c) {next : ℤ} (hx0 : 0 ≤ next) {n m : ℤ}
    (hn : 1 ≤ n) (hnm : n ≤ m) : splayProduct c next m ≤ splayProduct c next n := by
  unfold splayProduct f64Mul f64Div f64OfInt
  have a0 : 0 ≤ roundF64 (c / 100) := roundF64_nonneg (by positivity)
  have n1 : 0 < roundF64 (n : ℚ) := roundF64_pos (by exact_mod_cast (by omega : 0 < n))
  have nm : roundF64 (n : ℚ) ≤ roundF64 (m : ℚ) := roundF64_mono (by exact_mod_cast hnm)
  have x0 : 0 ≤ roundF64 (next : ℚ) := roundF64_nonneg (by exact_mod_cast hx0)
  apply roundF64_mono
  apply mul_le_mul_of_nonneg_left _ x0
  apply roundF64_mono
  exact div_le_div_of_nonneg_left a0 n1 nm

/-- With no cron expression the period is the interval and no error is
returned. -/
theorem calculateSplayInterval_interval {Schedule : Type} (env : Env Schedule)
    (check : CheckConfig) (n : ℤ) (h : check.Cron = "") :
    calculateSplayInterval env check n
      = (splayOf env.unspecified check.ProxyRequests.SplayCoverage
          (Second * (check.Interval : ℤ)) n, none) := by
  unfold calculateSplayInterval splayPeriod
  simp [h]

/-- The `float64` product is the exact product `next * (c / 100 / n)` up to a
factor within `1 ± 2^-50`. -/
theorem splayProduct_error {c : ℚ} (h0 : 0 ≤ c) {next : ℤ} (hx0 : 0 ≤ next) {n : ℤ}
    (hn : 1 ≤ n) :
    (next : ℚ) * (c / 100 / n) * (1 - 2 ^ (-50 : ℤ)) ≤ splayProduct c next n ∧
      splayProduct c next n ≤ (next : ℚ) * (c / 100 / n) * (1 + 2 ^ (-50 : ℤ)) := by
  unfold splayProduct f64Mul f64Div f64OfInt
  obtain ⟨U, hU⟩ : ∃ U : ℚ, U = 1 + 2 ^ (-53 : ℤ) := ⟨_, rfl⟩
  obtain ⟨L, hL⟩ : ∃ L : ℚ, L = 1 - 2 ^ (-53 : ℤ) := ⟨_, rfl⟩
  have hUpos : 0 < U := by rw [hU]; norm_num
  have hLpos : 0 < L := by rw [hL]; norm_num
  have numU : U ^ 4 / L ≤ 1 + 2 ^ (-50 : ℤ) := by rw [hU, hL]; norm_num
  have numL : 1 - 2 ^ (-50 : ℤ) ≤ L ^ 4 / U := by rw [hU, hL]; norm_num
  have hA : 0 ≤ c / 100 := by positivity
  have hN : (1 : ℚ) ≤ n := by exact_mod_cast hn
  have hNpos : (0 : ℚ) < n := by linarith
  have hX : (0 : ℚ) ≤ next := by exact_mod_cast hx0
  obtain ⟨aL, aU⟩ := roundF64_rel hA
  obtain ⟨nL, nU⟩ := roundF64_rel hNpos.le
  rw [← hL] at aL nL
  rw [← hU] at aU nU
  have ha0 : 0 ≤ roundF64 (c / 100) := roundF64_nonneg hA
  have hfn : 0 < roundF64 (n : ℚ) := roundF64_pos hNpos
  have hQ0 : 0 ≤ roundF64 (c / 100) / roundF64 (n : ℚ) := div_nonneg ha0 hfn.le
  have hNL : 0 < (n : ℚ) * L := mul_pos hNpos hLpos
  have hNU : 0 < (n : ℚ) * U := mul_pos hNpos hUpos
  have qU : roundF64 (c / 100) / roundF64 (n : ℚ) ≤ c / 100 * U / (n * L) :=
    div_le_div₀ (mul_nonneg hA hUpos.le) aU hNL nL
  have qL : c / 100 * L / (n * U) ≤ roundF64 (c / 100) / roundF64 (n : ℚ) :=
    div_le_div₀ ha0 aL hfn nU
  obtain ⟨tL, tU⟩ := roundF64_rel hQ0
  rw [← hL] at tL
  rw [← hU] at tU
  have ht0 : 0 ≤ roundF64 (roundF64 (c / 100) / roundF64 (n : ℚ)) := roundF64_nonneg hQ0
  obtain ⟨xL, xU⟩ := roundF64_rel hX
  rw [← hL] at xL
  rw [← hU] at xU
  have hx0' : 0 ≤ roundF64 (next : ℚ) := roundF64_nonneg hX
  have hR0 : 0 ≤ roundF64 (next : ℚ) * roundF64 (roundF64 (c / 100) / roundF64 (n : ℚ)) :=
    mul_nonneg hx0' ht0
  obtain ⟨pL, pU⟩ := roundF64_rel hR0
  rw [← hL] at pL
  rw [← hU] at pU
  have hE : 0 ≤ (next : ℚ) * (c / 100 / n) := mul_nonneg hX (div_nonneg hA hNpos.le)
  constructor
  · have t2 : c / 100 * L / (n * U) * L
        ≤ roundF64 (roundF64 (c / 100) / roundF64 (n : ℚ)) :=
      le_trans (mul_le_mul_of_nonneg_right qL hLpos.le) tL
    have r2 : (next : ℚ) * L * (c / 100 * L / (n * U) * L)
        ≤ roundF64 (next : ℚ) * roundF64 (roundF64 (c / 100) / roundF64 (n : ℚ)) :=
      mul_le_mul xL t2 (by positivity) hx0'
    have p2 : (next : ℚ) * L * (c / 100 * L / (n * U) * L) * L
        ≤ roundF64 (roundF64 (next : ℚ) * roundF64 (roundF64 (c / 100) / roundF64 (n : ℚ))) :=
      le_trans (mul_le_mul_of_nonneg_right r2 hLpos.le) pL
    have e : (next : ℚ) * L * (c / 100 * L / (n * U) * L) * L
        = (next : ℚ) * (c / 100 / n) * (L ^ 4 / U) := by
      field_simp; ring
    rw [e] at p2
    exact le_trans (mul_le_mul_of_nonneg_left numL hE) p2
  · have t2 : roundF64 (roundF64 (c / 100) / roundF64 (n : ℚ))
        ≤ c / 100 * U / (n * L) * U :=
      le_trans tU (mul_le_mul_of_nonneg_right qU hUpos.le)
    have r2 : roundF64 (next : ℚ) * roundF64 (roundF64 (c / 100) / roundF64 (n : ℚ))
        ≤ (next : ℚ) * U * (c / 100 * U / (n * L) * U) :=
      mul_le_mul xU t2 ht0 (by positivity)
    have p2 : roundF64 (roundF64 (next : ℚ) * roundF64 (roundF64 (c / 100) / roundF64 (n : ℚ)))
        ≤ (next : ℚ) * U * (c / 100 * U / (n * L) * U) * U :=
      le_trans pU (mul_le_mul_of_nonneg_right r2 hUpos.le)
    have e : (next : ℚ) * U * (c / 100 * U / (n * L) * U) * U
        = (next : ℚ) * (c / 100 / n) * (U ^ 4 / L) := by
      field_simp; ring
    rw [e] at p2
    exact le_trans p2 (mul_le_mul_of_nonneg_left numU hE)

/-- Doubling the number of entities at least halves the product. -/
theorem splayProduct_double {c : ℚ} (h0 : 0 ≤ c) {next : ℤ} (hx0 : 0 ≤ next) {n m : ℤ}
    (hn : 1 ≤ n) (hnm : 2 * n ≤ m) : splayProduct c next m ≤ splayProduct c next n / 2 := by
  have h1 : splayProduct c next m ≤ splayProduct c next (2 * n) :=
    splayProduct_antitone h0 hx0 (by omega) hnm
  refine le_trans h1 (le_of_eq ?_)
  unfold splayProduct f64Mul f64Div f64OfInt
  have e1 : roundF64 ((2 * n : ℤ) : ℚ) = 2 * roundF64 (n : ℚ) := by
    have := roundF64_half (((2 * n : ℤ) : ℚ))
    have e : (((2 * n : ℤ) : ℚ)) / 2 = (n : ℚ) := by push_cast; ring
    rw [e] at this
    linarith
  rw [e1]
  have e2 : roundF64 (c / 100) / (2 * roundF64 (n : ℚ))
      = roundF64 (c / 100) / roundF64 (n : ℚ) / 2 := by
    rw [div_div, mul_comm]
  rw [e2, roundF64_half]
  have e3 : roundF64 (next : ℚ) * (roundF64 (roundF64 (c / 100) / roundF64 (n : ℚ)) / 2)
      = roundF64 (next : ℚ) * roundF64 (roundF64 (c / 100) / roundF64 (n : ℚ)) / 2 := by
    ring
  rw [e3, roundF64_half]

/-! ## The values rounded are normal numbers

For a period that an `int64` holds, a coverage that a `uint32` holds and a
positive number of entities, every value `splayOf` rounds is 0 or lies between
`2^-70` and `2^95`, inside the range `[2^-1022, 2^1024)` of the normal numbers
of binary64, where the rounding of the model is the rounding of the format. -/

theorem roundF64_two_zpow (j : ℤ) : roundF64 ((2 : ℚ) ^ j) = 2 ^ j := by
  have e := roundF64_exact 1 j (by norm_num)
  rwa [Nat.cast_one, one_mul] at e

/-- Rounding keeps a value between two powers of two. -/
theorem roundF64_within {x : ℚ} {a b : ℤ} (h1 : (2 : ℚ) ^ a ≤ x) (h2 : x ≤ 2 ^ b) :
    (2 : ℚ) ^ a ≤ roundF64 x ∧ roundF64 x ≤ 2 ^ b := by
  have m1 := roundF64_mono h1
  have m2 := roundF64_mono h2
  rw [roundF64_two_zpow] at m1 m2
  exact ⟨m1, m2⟩

/-- The operands of the two divisions and of the product of `splayOf` lie
between `2^-70` and `2^95`. -/
theorem splayOf_operands_normal {c : ℕ} (hc : c < 2 ^ 32) {next n : ℤ} (hx0 : 1 ≤ next)
    (hx1 : next ≤ 2 ^ 63) (hn0 : 1 ≤ n) (hn1 : n ≤ 2 ^ 63) :
    ((2 : ℚ) ^ (-7 : ℤ) ≤ coverageOrDefault c / 100 ∧ coverageOrDefault c / 100 ≤ 2 ^ (32 : ℤ))
      ∧ ((2 : ℚ) ^ (0 : ℤ) ≤ (n : ℚ) ∧ (n : ℚ) ≤ 2 ^ (63 : ℤ))
      ∧ ((2 : ℚ) ^ (-70 : ℤ) ≤ f64Div (coverageOrDefault c) 100 / f64OfInt n
          ∧ f64Div (coverageOrDefault c) 100 / f64OfInt n ≤ 2 ^ (32 : ℤ))
      ∧ ((2 : ℚ) ^ (0 : ℤ) ≤ (next : ℚ) ∧ (next : ℚ) ≤ 2 ^ (63 : ℤ))
      ∧ ((2 : ℚ) ^ (-70 : ℤ)
            ≤ f64OfInt next * f64Div (f64Div (coverageOrDefault c) 100) (f64OfInt n)
          ∧ f64OfInt next * f64Div (f64Div (coverageOrDefault c) 100) (f64OfInt n)
            ≤ 2 ^ (95 : ℤ)) := by
  have c0 : (1 : ℚ) ≤ coverageOrDefault c := by
    unfold coverageOrDefault DefaultSplayCoverage
    split_ifs with h
    · norm_num
    · have : 1 ≤ c := Nat.one_le_iff_ne_zero.mpr h
      exact_mod_cast this
  have c1 : coverageOrDefault c ≤ 2 ^ (32 : ℤ) := by
    unfold coverageOrDefault DefaultSplayCoverage
    split_ifs with h
    · norm_num
    · have : (c : ℚ) ≤ ((2 ^ 32 : ℕ) : ℚ) := by exact_mod_cast hc.le
      calc (c : ℚ) ≤ ((2 ^ 32 : ℕ) : ℚ) := this
        _ = 2 ^ (32 : ℤ) := by norm_num
  have a : (2 : ℚ) ^ (-7 : ℤ) ≤ coverageOrDefault c / 100 ∧
      coverageOrDefault c / 100 ≤ 2 ^ (32 : ℤ) := by
    constructor
    · have : (2 : ℚ) ^ (-7 : ℤ) ≤ 1 / 100 := by norm_num
      linarith
    · linarith
  have hn : (2 : ℚ) ^ (0 : ℤ) ≤ (n : ℚ) ∧ (n : ℚ) ≤ 2 ^ (63 : ℤ) := by
    constructor
    · rw [zpow_zero]; exact_mod_cast hn0
    · have : (n : ℚ) ≤ (((2 : ℤ) ^ 63 : ℤ) : ℚ) := by exact_mod_cast hn1
      calc (n : ℚ) ≤ (((2 : ℤ) ^ 63 : ℤ) : ℚ) := this
        _ = 2 ^ (63 : ℤ) := by norm_num
  have hx : (2 : ℚ) ^ (0 : ℤ) ≤ (next : ℚ) ∧ (next : ℚ) ≤ 2 ^ (63 : ℤ) := by
    constructor
    · rw [zpow_zero]; exact_mod_cast hx0
    · have : (next : ℚ) ≤ (((2 : ℤ) ^ 63 : ℤ) : ℚ) := by exact_mod_cast hx1
      calc (next : ℚ) ≤ (((2 : ℤ) ^ 63 : ℤ) : ℚ) := this
        _ = 2 ^ (63 : ℤ) := by norm_num
  obtain ⟨ra0, ra1⟩ := roundF64_within a.1 a.2
  obtain ⟨rn0, rn1⟩ := roundF64_within hn.1 hn.2
  obtain ⟨rx0, rx1⟩ := roundF64_within hx.1 hx.2
  rw [zpow_zero] at rn0 rx0
  have fn_pos : (0 : ℚ) < roundF64 (n : ℚ) := by linarith
  have q : (2 : ℚ) ^ (-70 : ℤ) ≤ roundF64 (coverageOrDefault c / 100) / roundF64 (n : ℚ) ∧
      roundF64 (coverageOrDefault c / 100) / roundF64 (n : ℚ) ≤ 2 ^ (32 : ℤ) := by
    constructor
    · rw [le_div_iff₀ fn_pos]
      calc (2 : ℚ) ^ (-70 : ℤ) * roundF64 (n : ℚ) ≤ 2 ^ (-70 : ℤ) * 2 ^ (63 : ℤ) :=
            mul_le_mul_of_nonneg_left rn1 (two_zpow_pos _).le
        _ = 2 ^ (-7 : ℤ) := by norm_num
        _ ≤ _ := ra0
    · rw [div_le_iff₀ fn_pos]
      calc roundF64 (coverageOrDefault c / 100) ≤ 2 ^ (32 : ℤ) := ra1
        _ = 2 ^ (32 : ℤ) * 1 := by ring
        _ ≤ 2 ^ (32 : ℤ) * roundF64 (n : ℚ) :=
            mul_le_mul_of_nonneg_left rn0 (two_zpow_pos _).le
  obtain ⟨rq0, rq1⟩ := roundF64_within q.1 q.2
  refine ⟨a, hn, q, hx, ?_, ?_⟩
  · unfold f64OfInt f64Div
    calc (2 : ℚ) ^ (-70 : ℤ) = 1 * 2 ^ (-70 : ℤ) := by ring
      _ ≤ roundF64 (next : ℚ)
          * roundF64 (roundF64 (coverageOrDefault c / 100) / roundF64 (n : ℚ)) :=
          mul_le_mul rx0 rq0 (two_zpow_pos _).le (by linarith)
  · unfold f64OfInt f64Div
    calc roundF64 (next : ℚ)
          * roundF64 (roundF64 (coverageOrDefault c / 100) / roundF64 (n : ℚ))
        ≤ 2 ^ (63 : ℤ) * 2 ^ (32 : ℤ) :=
          mul_le_mul rx1 rq1 (le_trans (two_zpow_pos _).le rq0) (two_zpow_pos _).le
      _ = 2 ^ (95 : ℤ) := by norm_num

/-! ## Evaluations of the delay at concrete inputs -/

/-- Interval 60 s, coverage unset, 3 entities: 18 s. -/
theorem splayOf_60_0_3 (u : ℤ → ℚ → ℤ → ℤ) :
    splayOf u 0 60000000000 3 = 18000000000 := by
  have h0 : (if f64OfInt ((0 : ℕ) : ℤ) = 0 then DefaultSplayCoverage else f64OfInt ((0 : ℕ) : ℤ))
      = (90 : ℚ) := by
    simp [f64OfInt, roundF64_zero, DefaultSplayCoverage]
  have ha : roundF64 ((90 : ℚ) / 100) = (8106479329266893 / 9007199254740992 : ℚ) :=
    roundF64_eval 8106479329266893 (-53) (by norm_num) (by norm_num) (by norm_num)
      (by rw [abs_lt]; constructor <;> norm_num)
  have hn : roundF64 (3 : ℚ) = (3 : ℚ) :=
    roundF64_eval 6755399441055744 (-51) (by norm_num) (by norm_num) (by norm_num)
      (by rw [abs_lt]; constructor <;> norm_num)
  have hts : roundF64 ((8106479329266893 / 9007199254740992 : ℚ) / (3 : ℚ)) = (5404319552844595 / 18014398509481984 : ℚ) :=
    roundF64_eval 5404319552844595 (-54) (by norm_num) (by norm_num) (by norm_num)
      (by rw [abs_lt]; constructor <;> norm_num)
  have hx : roundF64 (60000000000 : ℚ) = (60000000000 : ℚ) :=
    roundF64_eval 7864320000000000 (-17) (by norm_num) (by norm_num) (by norm_num)
      (by rw [abs_lt]; constructor <;> norm_num)
  have hp : roundF64 ((60000000000 : ℚ) * (5404319552844595 / 18014398509481984 : ℚ)) = (18000000000 : ℚ) :=
    roundF64_eval 4718592000000000 (-18) (by norm_num) (by norm_num) (by norm_num)
      (by rw [abs_lt]; constructor <;> norm_num)
  have hd : truncate (18000000000 : ℚ) = 18000000000 :=
    truncate_eq_of (by norm_num) (by norm_num) (by norm_num)
  exact splayOf_eval u 0 60000000000 3 _ _ _ _ _ _ _ h0 (by norm_num) ha (by exact_mod_cast hn) hts
    (by exact_mod_cast hx) hp hd (by norm_num [minDuration, maxDuration])

/-- Interval 1 s, coverage 15, 3 entities: one nanosecond under 50 ms. -/
theorem splayOf_1_15_3 (u : ℤ → ℚ → ℤ → ℤ) :
    splayOf u 15 1000000000 3 = 49999999 := by
  have hc : roundF64 (15 : ℚ) = (15 : ℚ) :=
    roundF64_eval 8444249301319680 (-49) (by norm_num) (by norm_num) (by norm_num)
      (by rw [abs_lt]; constructor <;> norm_num)
  have h0 : (if f64OfInt ((15 : ℕ) : ℤ) = 0 then DefaultSplayCoverage else f64OfInt ((15 : ℕ) : ℤ))
      = (15 : ℚ) := by
    have hc2 : f64OfInt ((15 : ℕ) : ℤ) = (15 : ℚ) := by
      unfold f64OfInt; exact_mod_cast hc
    rw [hc2]; norm_num
  have ha : roundF64 ((15 : ℚ) / 100) = (5404319552844595 / 36028797018963968 : ℚ) :=
    roundF64_eval 5404319552844595 (-55) (by norm_num) (by norm_num) (by norm_num)
      (by rw [abs_lt]; constructor <;> norm_num)
  have hn : roundF64 (3 : ℚ) = (3 : ℚ) :=
    roundF64_eval 6755399441055744 (-51) (by norm_num) (by norm_num) (by norm_num)
      (by rw [abs_lt]; constructor <;> norm_num)
  have hts : roundF64 ((5404319552844595 / 36028797018963968 : ℚ) / (3 : ℚ)) = (7205759403792793 / 144115188075855872 : ℚ) :=
    roundF64_eval 7205759403792793 (-57) (by norm_num) (by norm_num) (by norm_num)
      (by rw [abs_lt]; constructor <;> norm_num)
  have hx : roundF64 (1000000000 : ℚ) = (1000000000 : ℚ) :=
    roundF64_eval 8388608000000000 (-23) (by norm_num) (by norm_num) (by norm_num)
      (by rw [abs_lt]; constructor <;> norm_num)
  have hp : roundF64 ((1000000000 : ℚ) * (7205759403792793 / 144115188075855872 : ℚ)) = (6710886399999999 / 134217728 : ℚ) :=
    roundF64_eval 6710886399999999 (-27) (by norm_num) (by norm_num) (by norm_num)
      (by rw [abs_lt]; constructor <;> norm_num)
  have hd : truncate (6710886399999999 / 134217728 : ℚ) = 49999999 :=
    truncate_eq_of (by norm_num) (by norm_num) (by norm_num)
  exact splayOf_eval u 15 1000000000 3 _ _ _ _ _ _ _ h0 (by norm_num) ha (by exact_mod_cast hn) hts
    (by exact_mod_cast hx) hp hd (by norm_num [minDuration, maxDuration])

/-- Interval 1 s, coverage 1, 3 entities: 3333333 ns. -/
theorem splayOf_1_1_3 (u : ℤ → ℚ → ℤ → ℤ) :
    splayOf u 1 1000000000 3 = 3333333 := by
  have hc : roundF64 (1 : ℚ) = (1 : ℚ) :=
    roundF64_eval 4503599627370496 (-52) (by norm_num) (by norm_num) (by norm_num)
      (by rw [abs_lt]; constructor <;> norm_num)
  have h0 : (if f64OfInt ((1 : ℕ) : ℤ) = 0 then DefaultSplayCoverage else f64OfInt ((1 : ℕ) : ℤ))
      = (1 : ℚ) := by
    have hc2 : f64OfInt ((1 : ℕ) : ℤ) = (1 : ℚ) := by
      unfold f64OfInt; exact_mod_cast hc
    rw [hc2]; norm_num
  have ha : roundF64 ((1 : ℚ) / 100) = (5764607523034235 / 576460752303423488 : ℚ) :=
    roundF64_eval 5764607523034235 (-59) (by norm_num) (by norm_num) (by norm_num)
      (by rw [abs_lt]; constructor <;> norm_num)
  have hn : roundF64 (3 : ℚ) = (3 : ℚ) :=
    roundF64_eval 6755399441055744 (-51) (by norm_num) (by norm_num) (by norm_num)
      (by rw [abs_lt]; constructor <;> norm_num)
  have hts : roundF64 ((5764607523034235 / 576460752303423488 : ℚ) / (3 : ℚ)) = (7686143364045647 / 2305843009213693952 : ℚ) :=
    roundF64_eval 7686143364045647 (-61) (by norm_num) (by norm_num) (by norm_num)
      (by rw [abs_lt]; constructor <;> norm_num)
  have hx : roundF64 (1000000000 : ℚ) = (1000000000 : ℚ) :=
    roundF64_eval 8388608000000000 (-23) (by norm_num) (by norm_num) (by norm_num)
      (by rw [abs_lt]; constructor <;> norm_num)
  have hp : roundF64 ((1000000000 : ℚ) * (7686143364045647 / 2305843009213693952 : ℚ)) = (7158278826666667 / 2147483648 : ℚ) :=
    roundF64_eval 7158278826666667 (-31) (by norm_num) (by norm_num) (by norm_num)
      (by rw [abs_lt]; constructor <;> norm_num)
  have hd : truncate (7158278826666667 / 2147483648 : ℚ) = 3333333 :=
    truncate_eq_of (by norm_num) (by norm_num) (by norm_num)
  exact splayOf_eval u 1 1000000000 3 _ _ _ _ _ _ _ h0 (by norm_num) ha (by exact_mod_cast hn) hts
    (by exact_mod_cast hx) hp hd (by norm_num [minDuration, maxDuration])

/-- Interval 3 s, coverage 1, 3 entities: 10 ms. -/
theorem splayOf_3_1_3 (u : ℤ → ℚ → ℤ → ℤ) :
    splayOf u 1 3000000000 3 = 10000000 := by
  have hc : roundF64 (1 : ℚ) = (1 : ℚ) :=
    roundF64_eval 4503599627370496 (-52) (by norm_num) (by norm_num) (by norm_num)
      (by rw [abs_lt]; constructor <;> norm_num)
  have h0 : (if f64OfInt ((1 : ℕ) : ℤ) = 0 then DefaultSplayCoverage else f64OfInt ((1 : ℕ) : ℤ))
      = (1 : ℚ) := by
    have hc2 : f64OfInt ((1 : ℕ) : ℤ) = (1 : ℚ) := by
      unfold f64OfInt; exact_mod_cast hc
    rw [hc2]; norm_num
  have ha : roundF64 ((1 : ℚ) / 100) = (5764607523034235 / 576460752303423488 : ℚ) :=
    roundF64_eval 5764607523034235 (-59) (by norm_num) (by norm_num) (by norm_num)
      (by rw [abs_lt]; constructor <;> norm_num)
  have hn : roundF64 (3 : ℚ) = (3 : ℚ) :=
    roundF64_eval 6755399441055744 (-51) (by norm_num) (by norm_num) (by norm_num)
      (by rw [abs_lt]; constructor <;> norm_num)
  have hts : roundF64 ((5764607523034235 / 576460752303423488 : ℚ) / (3 : ℚ)) = (7686143364045647 / 2305843009213693952 : ℚ) :=
    roundF64_eval 7686143364045647 (-61) (by norm_num) (by norm_num) (by norm_num)
      (by rw [abs_lt]; constructor <;> norm_num)
  have hx : roundF64 (3000000000 : ℚ) = (3000000000 : ℚ) :=
    roundF64_eval 6291456000000000 (-21) (by norm_num) (by norm_num) (by norm_num)
      (by rw [abs_lt]; constructor <;> norm_num)
  have hp : roundF64 ((3000000000 : ℚ) * (7686143364045647 / 2305843009213693952 : ℚ)) = (10000000 : ℚ) :=
    roundF64_eval 5368709120000000 (-29) (by norm_num) (by norm_num) (by norm_num)
      (by rw [abs_lt]; constructor <;> norm_num)
  have hd : truncate (10000000 : ℚ) = 10000000 :=
    truncate_eq_of (by norm_num) (by norm_num) (by norm_num)
  exact splayOf_eval u 1 3000000000 3 _ _ _ _ _ _ _ h0 (by norm_num) ha (by exact_mod_cast hn) hts
    (by exact_mod_cast hx) hp hd (by norm_num [minDuration, maxDuration])

/-- Interval 1 s, coverage 3, 3 entities: 10 ms. -/
theorem splayOf_1_3_3 (u : ℤ → ℚ → ℤ → ℤ) :
    splayOf u 3 1000000000 3 = 10000000 := by
  have hc : roundF64 (3 : ℚ) = (3 : ℚ) :=
    roundF64_eval 6755399441055744 (-51) (by norm_num) (by norm_num) (by norm_num)
      (by rw [abs_lt]; constructor <;> norm_num)
  have h0 : (if f64OfInt ((3 : ℕ) : ℤ) = 0 then DefaultSplayCoverage else f64OfInt ((3 : ℕ) : ℤ))
      = (3 : ℚ) := by
    have hc2 : f64OfInt ((3 : ℕ) : ℤ) = (3 : ℚ) := by
      unfold f64OfInt; exact_mod_cast hc
    rw [hc2]; norm_num
  have ha : roundF64 ((3 : ℚ) / 100) = (1080863910568919 / 36028797018963968 : ℚ) :=
    roundF64_eval 8646911284551352 (-58) (by norm_num) (by norm_num) (by norm_num)
      (by rw [abs_lt]; constructor <;> norm_num)
  have hn : roundF64 (3 : ℚ) = (3 : ℚ) :=
    roundF64_eval 6755399441055744 (-51) (by norm_num) (by norm_num) (by norm_num)
      (by rw [abs_lt]; constructor <;> norm_num)
  have hts : roundF64 ((1080863910568919 / 36028797018963968 : ℚ) / (3 : ℚ)) = (5764607523034235 / 576460752303423488 : ℚ) :=
    roundF64_eval 5764607523034235 (-59) (by norm_num) (by norm_num) (by norm_num)
      (by rw [abs_lt]; constructor <;> norm_num)
  have hx : roundF64 (1000000000 : ℚ) = (1000000000 : ℚ) :=
    roundF64_eval 8388608000000000 (-23) (by norm_num) (by norm_num) (by norm_num)
      (by rw [abs_lt]; constructor <;> norm_num)
  have hp : roundF64 ((1000000000 : ℚ) * (5764607523034235 / 576460752303423488 : ℚ)) = (10000000 : ℚ) :=
    roundF64_eval 5368709120000000 (-29) (by norm_num) (by norm_num) (by norm_num)
      (by rw [abs_lt]; constructor <;> norm_num)
  have hd : truncate (10000000 : ℚ) = 10000000 :=
    truncate_eq_of (by norm_num) (by norm_num) (by norm_num)
  exact splayOf_eval u 3 1000000000 3 _ _ _ _ _ _ _ h0 (by norm_num) ha (by exact_mod_cast hn) hts
    (by exact_mod_cast hx) hp hd (by norm_num [minDuration, maxDuration])

/-- Interval 1 s, coverage 1, 3199 entities: 3125 ns. -/
theorem splayOf_1_1_3199 (u : ℤ → ℚ → ℤ → ℤ) :
    splayOf u 1 1000000000 3199 = 3125 := by
  have hc : roundF64 (1 : ℚ) = (1 : ℚ) :=
    roundF64_eval 4503599627370496 (-52) (by norm_num) (by norm_num) (by norm_num)
      (by rw [abs_lt]; constructor <;> norm_num)
  have h0 : (if f64OfInt ((1 : ℕ) : ℤ) = 0 then DefaultSplayCoverage else f64OfInt ((1 : ℕ) : ℤ))
      = (1 : ℚ) := by
    have hc2 : f64OfInt ((1 : ℕ) : ℤ) = (1 : ℚ) := by
      unfold f64OfInt; exact_mod_cast hc
    rw [hc2]; norm_num
  have ha : roundF64 ((1 : ℚ) / 100) = (5764607523034235 / 576460752303423488 : ℚ) :=
    roundF64_eval 5764607523034235 (-59) (by norm_num) (by norm_num) (by norm_num)
      (by rw [abs_lt]; constructor <;> norm_num)
  have hn : roundF64 (3199 : ℚ) = (3199 : ℚ) :=
    roundF64_eval 7034675394510848 (-41) (by norm_num) (by norm_num) (by norm_num)
      (by rw [abs_lt]; constructor <;> norm_num)
  have hts : roundF64 ((5764607523034235 / 576460752303423488 : ℚ) / (3199 : ℚ)) = (7381004193294225 / 2361183241434822606848 : ℚ) :=
    roundF64_eval 7381004193294225 (-71) (by norm_num) (by norm_num) (by norm_num)
      (by rw [abs_lt]; constructor <;> norm_num)
  have hx : roundF64 (1000000000 : ℚ) = (1000000000 : ℚ) :=
    roundF64_eval 8388608000000000 (-23) (by norm_num) (by norm_num) (by norm_num)
      (by rw [abs_lt]; constructor <;> norm_num)
  have hp : roundF64 ((1000000000 : ℚ) * (7381004193294225 / 2361183241434822606848 : ℚ)) = (6874095828546421 / 2199023255552 : ℚ) :=
    roundF64_eval 6874095828546421 (-41) (by norm_num) (by norm_num) (by norm_num)
      (by rw [abs_lt]; constructor <;> norm_num)
  have hd : truncate (6874095828546421 / 2199023255552 : ℚ) = 3125 :=
    truncate_eq_of (by norm_num) (by norm_num) (by norm_num)
  exact splayOf_eval u 1 1000000000 3199 _ _ _ _ _ _ _ h0 (by norm_num) ha (by exact_mod_cast hn) hts
    (by exact_mod_cast hx) hp hd (by norm_num [minDuration, maxDuration])

/-- Interval 1 s, coverage 1, 3200 entities: 3125 ns. -/
theorem splayOf_1_1_3200 (u : ℤ → ℚ → ℤ → ℤ) :
    splayOf u 1 1000000000 3200 = 3125 := by
  have hc : roundF64 (1 : ℚ) = (1 : ℚ) :=
    roundF64_eval 4503599627370496 (-52) (by norm_num) (by norm_num) (by norm_num)
      (by rw [abs_lt]; constructor <;> norm_num)
  have h0 : (if f64OfInt ((1 : ℕ) : ℤ) = 0 then DefaultSplayCoverage else f64OfInt ((1 : ℕ) : ℤ))
      = (1 : ℚ) := by
    have hc2 : f64OfInt ((1 : ℕ) : ℤ) = (1 : ℚ) := by
      unfold f64OfInt; exact_mod_cast hc
    rw [hc2]; norm_num
  have ha : roundF64 ((1 : ℚ) / 100) = (5764607523034235 / 576460752303423488 : ℚ) :=
    roundF64_eval 5764607523034235 (-59) (by norm_num) (by norm_num) (by norm_num)
      (by rw [abs_lt]; constructor <;> norm_num)
  have hn : roundF64 (3200 : ℚ) = (3200 : ℚ) :=
    roundF64_eval 7036874417766400 (-41) (by norm_num) (by norm_num) (by norm_num)
      (by rw [abs_lt]; constructor <;> norm_num)
  have hts : roundF64 ((5764607523034235 / 576460752303423488 : ℚ) / (3200 : ℚ)) = (7378697629483821 / 2361183241434822606848 : ℚ) :=
    roundF64_eval 7378697629483821 (-71) (by norm_num) (by norm_num) (by norm_num)
      (by rw [abs_lt]; constructor <;> norm_num)
  have hx : roundF64 (1000000000 : ℚ) = (1000000000 : ℚ) :=
    roundF64_eval 8388608000000000 (-23) (by norm_num) (by norm_num) (by norm_num)
      (by rw [abs_lt]; constructor <;> norm_num)
  have hp : roundF64 ((1000000000 : ℚ) * (7378697629483821 / 2361183241434822606848 : ℚ)) = (3125 : ℚ) :=
    roundF64_eval 6871947673600000 (-41) (by norm_num) (by norm_num) (by norm_num)
      (by rw [abs_lt]; constructor <;> norm_num)
  have hd : truncate (3125 : ℚ) = 3125 :=
    truncate_eq_of (by norm_num) (by norm_num) (by norm_num)
  exact splayOf_eval u 1 1000000000 3200 _ _ _ _ _ _ _ h0 (by norm_num) ha (by exact_mod_cast hn) hts
    (by exact_mod_cast hx) hp hd (by norm_num [minDuration, maxDuration])

/-! ## The claims -/

section Claims

variable {Entity Synth Bytes Schedule : Type}

theorem satisfiesAll_iff (evaluate : String → Synth → Except JsError Bool)
    (synth : Synth) (L : List String) :
    satisfiesAll evaluate synth L = true ↔ ∀ x ∈ L, evaluate x synth = Except.ok true := by
  unfold satisfiesAll
  rw [List.all_eq_true]
  constructor
  · intro h x hx
    have := h x hx
    unfold evaluatesTrue at this
    split at this
    · assumption
    · exact absurd this (by simp)
  · intro h x hx
    rw [h x hx]; rfl

theorem matchExpressions_eq_satisfiesAll (evaluate : String → Synth → Except JsError Bool)
    (synth : Synth) (L : List String) :
    matchExpressions evaluate synth L = satisfiesAll evaluate synth L := by
  rw [Bool.eq_iff_iff, matchExpressions_iff, satisfiesAll_iff]

/-- C1: `matchEntities` returns exactly the sub-list, in the original order,
of the entities for which every expression of the proxy request evaluates to
`true` without error; such an entity occurs in the result as often as in the
input, any other entity does not occur, and with no expression the result is
the whole input. -/
theorem matchEntities_spec [DecidableEq Entity] (synthesize : Entity → Synth)
    (evaluate : String → Synth → Except JsError Bool)
    (E : List Entity) (proxyRequest : ProxyRequests) :
    matchEntities synthesize evaluate E proxyRequest
        = E.filter (fun e => satisfiesAll evaluate (synthesize e) proxyRequest.EntityAttributes)
      ∧ (∀ e, satisfiesAll evaluate (synthesize e) proxyRequest.EntityAttributes = true ↔
            ∀ x ∈ proxyRequest.EntityAttributes, evaluate x (synthesize e) = Except.ok true)
      ∧ (matchEntities synthesize evaluate E proxyRequest).Sublist E
      ∧ (∀ e, (matchEntities synthesize evaluate E proxyRequest).count e
            = if satisfiesAll evaluate (synthesize e) proxyRequest.EntityAttributes
              then E.count e else 0)
      ∧ (proxyRequest.EntityAttributes = [] →
            matchEntities synthesize evaluate E proxyRequest = E) := by
  have hf : matchEntities synthesize evaluate E proxyRequest
      = E.filter (fun e => satisfiesAll evaluate (synthesize e) proxyRequest.EntityAttributes) := by
    rw [matchEntities_eq_filter]
    congr 1
    funext e
    exact matchExpressions_eq_satisfiesAll evaluate (synthesize e) _
  refine ⟨hf, fun e => satisfiesAll_iff evaluate (synthesize e) _, ?_, ?_, ?_⟩
  · rw [hf]; exact List.filter_sublist E
  · intro e
    rw [hf]
    by_cases h : satisfiesAll evaluate (synthesize e) proxyRequest.EntityAttributes = true
    · rw [if_pos h]
      exact List.count_filter (p := fun e =>
        satisfiesAll evaluate (synthesize e) proxyRequest.EntityAttributes) h
    · rw [if_neg h, List.count_eq_zero]
      intro hmem
      exact h (List.mem_filter.mp hmem).2
  · intro hL
    rw [hf, hL]
    simp [satisfiesAll]

/-- The statement of C1 at three entities and one expression that fails on the
entity `"b"`. -/
theorem matchEntities_spec_witness :
    matchEntities id sampleEvaluate ["a", "b", "a"] ⟨["not-b"], 0⟩ = ["a", "a"]
      ∧ matchEntities id sampleEvaluate ["a", "b", "a"] ⟨[], 0⟩ = ["a", "b", "a"] := by
  have h := matchEntities_spec id sampleEvaluate ["a", "b", "a"] ⟨["not-b"], 0⟩
  have h' := matchEntities_spec id sampleEvaluate ["a", "b", "a"] ⟨[], 0⟩
  refine ⟨?_, h'.2.2.2.2 rfl⟩
  rw [h.1]
  decide

/-- C2: an entity on which an expression of the proxy request raises an
error, of either kind (in particular when the first expression that is not
true for it does), is left out and changes nothing for the entities around it:
the result for `A ++ [e] ++ B` is the result for `A ++ B`, a list in every
case. -/
theorem matchEntities_error_isolated (synthesize : Entity → Synth)
    (evaluate : String → Synth → Except JsError Bool)
    (A B : List Entity) (e : Entity) (proxyRequest : ProxyRequests)
    (x : String) (err : JsError)
    (hx : x ∈ proxyRequest.EntityAttributes)
    (herr : evaluate x (synthesize e) = Except.error err) :
    matchEntities synthesize evaluate (A ++ [e] ++ B) proxyRequest
      = matchEntities synthesize evaluate (A ++ B) proxyRequest := by
  have hno : matchExpressions evaluate (synthesize e) proxyRequest.EntityAttributes = false := by
    rw [Bool.eq_false_iff]
    intro h
    rw [matchExpressions_iff] at h
    have := h x hx
    rw [herr] at this
    cases this
  simp only [matchEntities_eq_filter, List.filter_append, List.filter_cons, List.filter_nil, hno,
    Bool.false_eq_true, if_false, List.append_nil]

/-- The statement of C2 at an entity `"b"` with a syntax error on the second
expression, between the entities `"a"` and `"c"`. -/
theorem matchEntities_error_isolated_witness :
    "broken" ∈ (⟨["always", "broken", "never"], 0⟩ : ProxyRequests).EntityAttributes
      ∧ sampleEvaluate "broken" (id "b") = Except.error (JsError.SyntaxError "unexpected token")
      ∧ matchEntities id sampleEvaluate (["a"] ++ ["b"] ++ ["c"])
            ⟨["always", "broken", "never"], 0⟩
          = matchEntities id sampleEvaluate (["a"] ++ ["c"]) ⟨["always", "broken", "never"], 0⟩ :=
  ⟨by simp, by simp [sampleEvaluate],
    matchEntities_error_isolated id sampleEvaluate ["a"] ["c"] "b"
      ⟨["always", "broken", "never"], 0⟩ "broken"
      (JsError.SyntaxError "unexpected token") (by simp) (by simp [sampleEvaluate])⟩

/-- C8: `substituteProxyEntityTokens` returns an error and no check exactly
when the token substitution fails or its output does not unmarshal; otherwise
it returns no error and the unmarshalled check with `ProxyEntityName` set to
the name of the entity. -/
theorem substituteProxyEntityTokens_spec (synthesize : Entity → Synth)
    (tokenSubstitution : Synth → CheckConfig → Except String Bytes)
    (unmarshal : Bytes → Except String CheckConfig)
    (entityName : Entity → String) (entity : Entity) (check : CheckConfig) :
    ((∃ err, substituteProxyEntityTokens synthesize tokenSubstitution unmarshal entityName
            entity check = (none, some err)) ↔
        ((∃ err, tokenSubstitution (synthesize entity) check = Except.error err) ∨
          ∃ checkBytes err, tokenSubstitution (synthesize entity) check = Except.ok checkBytes ∧
            unmarshal checkBytes = Except.error err))
      ∧ ((∃ err, substituteProxyEntityTokens synthesize tokenSubstitution unmarshal entityName
            entity check = (none, some err)) ∨
          ∃ checkBytes substitutedCheck,
            tokenSubstitution (synthesize entity) check = Except.ok checkBytes ∧
            unmarshal checkBytes = Except.ok substitutedCheck ∧
            substituteProxyEntityTokens synthesize tokenSubstitution unmarshal entityName
                entity check
              = (some { substitutedCheck with ProxyEntityName := entityName entity }, none)) := by
  unfold substituteProxyEntityTokens
  cases h1 : tokenSubstitution (synthesize entity) check with
  | error err => simp [h1]
  | ok checkBytes =>
    cases h2 : unmarshal checkBytes with
    | error err => simp [h1, h2]
    | ok substitutedCheck => simp [h1, h2]

/-- C7: when the cron expression is not empty and the cron parser rejects it,
`calculateSplayInterval` returns that error with a zero delay, whatever the
interval, the coverage and the number of entities; when the cron expression is
empty it returns no error. -/
theorem calculateSplayInterval_errors (env : Env Schedule) (check : CheckConfig) (n : ℤ) :
    (∀ err, check.Cron ≠ "" → env.ParseStandard check.Cron = Except.error err →
        calculateSplayInterval env check n = (0, some err))
      ∧ (check.Cron = "" → (calculateSplayInterval env check n).2 = none) := by
  constructor
  · intro err h1 h2
    unfold calculateSplayInterval splayPeriod
    simp [h1, h2]
  · intro h
    rw [calculateSplayInterval_interval env check n h]

/-- The statement of C7 at a cron expression of four fields and at a check
without cron expression. -/
theorem calculateSplayInterval_errors_witness :
    (cronCheck "* * * *").Cron ≠ ""
      ∧ (minuteEnv 0 0).ParseStandard (cronCheck "* * * *").Cron
          = Except.error "expected exactly 5 fields"
      ∧ calculateSplayInterval (minuteEnv 0 0) (cronCheck "* * * *") 3
          = (0, some "expected exactly 5 fields")
      ∧ (sampleCheck 60 0).Cron = ""
      ∧ (calculateSplayInterval (minuteEnv 0 0) (sampleCheck 60 0) 3).2 = none :=
  ⟨by simp [cronCheck], by simp [cronCheck, minuteEnv],
    (calculateSplayInterval_errors (minuteEnv 0 0) (cronCheck "* * * *") 3).1
      "expected exactly 5 fields" (by simp [cronCheck]) (by simp [cronCheck, minuteEnv]),
    rfl, (calculateSplayInterval_errors (minuteEnv 0 0) (sampleCheck 60 0) 3).2 rfl⟩

end Claims

section SplayClaims

variable {Schedule : Type}

/-- The delay lies within one nanosecond and a factor `1 ± 2^-50` of the
exact product. -/
theorem splayOf_near_exact (u : ℤ → ℚ → ℤ → ℤ) {c : ℕ} (hc : c ≤ 100) {next : ℤ}
    (hx0 : 0 ≤ next) (hx1 : next ≤ 2 ^ 62) {n : ℤ} (hn : 1 ≤ n) :
    (next : ℚ) * (coverageOrDefault c / 100 / n) * (1 - 2 ^ (-50 : ℤ)) - 1
        < (splayOf u c next n : ℚ)
      ∧ (splayOf u c next n : ℚ)
        ≤ (next : ℚ) * (coverageOrDefault c / 100 / n) * (1 + 2 ^ (-50 : ℤ)) := by
  rw [splayOf_floor u hc hx0 hx1 hn]
  obtain ⟨e1, e2⟩ := splayProduct_error (coverageOrDefault_pos c).le hx0 hn
  have f1 := Int.floor_le (splayProduct (coverageOrDefault c) next n)
  have f2 := Int.lt_floor_add_one (splayProduct (coverageOrDefault c) next n)
  constructor <;> linarith

/-- C6: for an interval-based check (interval a `uint32`, coverage at most
100) the delay is non-negative and does not increase with the number of
entities: for `1 ≤ n ≤ m` the delay for `m` is at least 0 and at most the delay
for `n`. -/
theorem calculateSplayInterval_antitone (env : Env Schedule) (check : CheckConfig) (n m : ℤ)
    (hcron : check.Cron = "") (hi : check.Interval < 2 ^ 32)
    (hc : check.ProxyRequests.SplayCoverage ≤ 100) (hn : 1 ≤ n) (hnm : n ≤ m) :
    0 ≤ (calculateSplayInterval env check m).1
      ∧ (calculateSplayInterval env check m).1 ≤ (calculateSplayInterval env check n).1 := by
  obtain ⟨x0, x1⟩ := interval_period_bounds hi
  rw [calculateSplayInterval_interval env check m hcron,
    calculateSplayInterval_interval env check n hcron]
  simp only
  rw [splayOf_floor _ hc x0 x1 hn, splayOf_floor _ hc x0 x1 (le_trans hn hnm)]
  constructor
  · exact Int.floor_nonneg.mpr
      (splayProduct_bounds (coverageOrDefault_pos _).le (coverageOrDefault_le hc) x0 x1
        (le_trans hn hnm)).1
  · exact Int.floor_le_floor (splayProduct_antitone (coverageOrDefault_pos _).le x0 hn hnm)

/-- The statement of C6 at interval 60, coverage unset, 1 and 3 entities. -/
theorem calculateSplayInterval_antitone_witness :
    (sampleCheck 60 0).Cron = "" ∧ (sampleCheck 60 0).Interval < 2 ^ 32
      ∧ (sampleCheck 60 0).ProxyRequests.SplayCoverage ≤ 100 ∧ (1 : ℤ) ≤ 1 ∧ (1 : ℤ) ≤ 3
      ∧ 0 ≤ (calculateSplayInterval (minuteEnv 0 0) (sampleCheck 60 0) 3).1
      ∧ (calculateSplayInterval (minuteEnv 0 0) (sampleCheck 60 0) 3).1
          ≤ (calculateSplayInterval (minuteEnv 0 0) (sampleCheck 60 0) 1).1 :=
  ⟨rfl, by simp [sampleCheck], by simp [sampleCheck], by decide, by decide,
    calculateSplayInterval_antitone (minuteEnv 0 0) (sampleCheck 60 0) 1 3 rfl
      (by simp [sampleCheck]) (by simp [sampleCheck]) (by decide) (by decide)⟩

/-- C5, as the code has it: for an interval-based check (interval a `uint32`,
coverage at most 100) and `1 ≤ n < m` the delay for `m` is at most the delay
for `n`; it is strictly smaller when `m` is at least twice `n` and the delay
for `n` is not 0. -/
theorem calculateSplayInterval_decreasing (env : Env Schedule) (check : CheckConfig) (n m : ℤ)
    (hcron : check.Cron = "") (hi : check.Interval < 2 ^ 32)
    (hc : check.ProxyRequests.SplayCoverage ≤ 100) (hn : 1 ≤ n) (hnm : n < m) :
    (calculateSplayInterval env check m).1 ≤ (calculateSplayInterval env check n).1
      ∧ (2 * n ≤ m → 0 < (calculateSplayInterval env check n).1 →
          (calculateSplayInterval env check m).1 < (calculateSplayInterval env check n).1) := by
  obtain ⟨x0, x1⟩ := interval_period_bounds hi
  rw [calculateSplayInterval_interval env check m hcron,
    calculateSplayInterval_interval env check n hcron]
  simp only
  rw [splayOf_floor _ hc x0 x1 hn, splayOf_floor _ hc x0 x1 (le_trans hn hnm.le)]
  constructor
  · exact Int.floor_le_floor (splayProduct_antitone (coverageOrDefault_pos _).le x0 hn hnm.le)
  · intro h2 hpos
    have hd := splayProduct_double
      (coverageOrDefault_pos check.ProxyRequests.SplayCoverage).le x0 hn h2
    have f1 := Int.floor_le
      (splayProduct (coverageOrDefault check.ProxyRequests.SplayCoverage)
        (Second * (check.Interval : ℤ)) m)
    have f2 := Int.lt_floor_add_one
      (splayProduct (coverageOrDefault check.ProxyRequests.SplayCoverage)
        (Second * (check.Interval : ℤ)) n)
    have hp : (1 : ℚ) ≤ ⌊splayProduct (coverageOrDefault check.ProxyRequests.SplayCoverage)
        (Second * (check.Interval : ℤ)) n⌋ := by exact_mod_cast hpos
    have : ((⌊splayProduct (coverageOrDefault check.ProxyRequests.SplayCoverage)
        (Second * (check.Interval : ℤ)) m⌋ : ℤ) : ℚ)
        < ⌊splayProduct (coverageOrDefault check.ProxyRequests.SplayCoverage)
            (Second * (check.Interval : ℤ)) n⌋ := by linarith
    exact_mod_cast this

theorem sample_period (i : ℕ) (k : ℤ) (h : Second * (i : ℤ) = k) (t0 t1 : ℤ) (c : ℕ) (n : ℤ) :
    calculateSplayInterval (minuteEnv t0 t1) (sampleCheck i c) n
      = (splayOf (minuteEnv t0 t1).unspecified c k n, none) := by
  rw [calculateSplayInterval_interval _ _ _ rfl, ← h]
  rfl

/-- The statement of C5 as the code has it, at interval 60, coverage unset, 3
and 6 entities. -/
theorem calculateSplayInterval_decreasing_witness :
    (sampleCheck 60 0).Cron = "" ∧ (sampleCheck 60 0).Interval < 2 ^ 32
      ∧ (sampleCheck 60 0).ProxyRequests.SplayCoverage ≤ 100 ∧ (1 : ℤ) ≤ 3 ∧ (3 : ℤ) < 6
      ∧ (2 : ℤ) * 3 ≤ 6
      ∧ 0 < (calculateSplayInterval (minuteEnv 0 0) (sampleCheck 60 0) 3).1
      ∧ (calculateSplayInterval (minuteEnv 0 0) (sampleCheck 60 0) 6).1
          < (calculateSplayInterval (minuteEnv 0 0) (sampleCheck 60 0) 3).1 := by
  have hpos : 0 < (calculateSplayInterval (minuteEnv 0 0) (sampleCheck 60 0) 3).1 := by
    rw [sample_period 60 60000000000 (by norm_num [Second]), splayOf_60_0_3]
    norm_num
  exact ⟨rfl, by simp [sampleCheck], by simp [sampleCheck], by decide, by decide, by decide, hpos,
    (calculateSplayInterval_decreasing (minuteEnv 0 0) (sampleCheck 60 0) 3 6 rfl
      (by simp [sampleCheck]) (by simp [sampleCheck]) (by decide) (by decide)).2
      (by decide) hpos⟩

/-- C5 fails as stated: with interval 1 s and coverage 1, the delay for 3200
entities is not smaller than the delay for 3199 entities; both are 3125 ns. -/
theorem calculateSplayInterval_not_strict :
    (sampleCheck 1 1).Cron = "" ∧ (1 : ℤ) ≤ 3199 ∧ (3199 : ℤ) < 3200
      ∧ (calculateSplayInterval (minuteEnv 0 0) (sampleCheck 1 1) 3199).1 = 3125
      ∧ (calculateSplayInterval (minuteEnv 0 0) (sampleCheck 1 1) 3200).1 = 3125
      ∧ ¬ ((calculateSplayInterval (minuteEnv 0 0) (sampleCheck 1 1) 3200).1
            < (calculateSplayInterval (minuteEnv 0 0) (sampleCheck 1 1) 3199).1) := by
  have e := sample_period 1 1000000000 (by norm_num [Second]) 0 0 1
  rw [e 3199, e 3200, splayOf_1_1_3199, splayOf_1_1_3200]
  exact ⟨rfl, by decide, by decide, rfl, rfl, by decide⟩

end SplayClaims

section SplayValueClaims

variable {Schedule : Type}

/-- C3, as the code has it: for an interval-based check (interval a `uint32`,
coverage at most 100) and at least one entity, `calculateSplayInterval`
returns no error and the truncated `float64` product
`float64(period) * (c / 100 / float64(n))`, each division and the product
rounded to the nearest `float64`; the delay is within one nanosecond and a
factor `1 ± 2^-50` of the exact product; for interval 60, coverage unset and 3
entities it is 18 seconds. -/
theorem calculateSplayInterval_value (env : Env Schedule) (check : CheckConfig) (n : ℤ)
    (hcron : check.Cron = "") (hi : check.Interval < 2 ^ 32)
    (hc : check.ProxyRequests.SplayCoverage ≤ 100) (hn : 1 ≤ n) :
    (calculateSplayInterval env check n).2 = none
      ∧ (calculateSplayInterval env check n).1
          = truncate (f64Mul (f64OfInt (Second * (check.Interval : ℤ)))
              (f64Div (f64Div (coverageOrDefault check.ProxyRequests.SplayCoverage) 100)
                (f64OfInt n)))
      ∧ exactProduct check n * (1 - 2 ^ (-50 : ℤ)) - 1
          < ((calculateSplayInterval env check n).1 : ℚ)
      ∧ ((calculateSplayInterval env check n).1 : ℚ)
          ≤ exactProduct check n * (1 + 2 ^ (-50 : ℤ))
      ∧ (check.Interval = 60 → check.ProxyRequests.SplayCoverage = 0 → n = 3 →
          (calculateSplayInterval env check n).1 = 18 * Second) := by
  obtain ⟨x0, x1⟩ := interval_period_bounds hi
  obtain ⟨b1, b2⟩ := splayOf_near_exact env.unspecified hc x0 x1 hn
  rw [calculateSplayInterval_interval env check n hcron]
  refine ⟨rfl, ?_, b1, b2, ?_⟩
  · simp only
    rw [splayOf_floor _ hc x0 x1 hn, truncate_of_nonneg]
    · rfl
    · exact (splayProduct_bounds (coverageOrDefault_pos _).le (coverageOrDefault_le hc) x0 x1
        hn).1
  · intro h1 h2 h3
    simp only [h1, h2, h3]
    have e : Second * ((60 : ℕ) : ℤ) = 60000000000 := by norm_num [Second]
    rw [e, splayOf_60_0_3]
    norm_num [Second]

/-- The statement of C3 as the code has it, at interval 60, coverage unset and
3 entities. -/
theorem calculateSplayInterval_value_witness :
    (sampleCheck 60 0).Cron = "" ∧ (sampleCheck 60 0).Interval < 2 ^ 32
      ∧ (sampleCheck 60 0).ProxyRequests.SplayCoverage ≤ 100 ∧ (1 : ℤ) ≤ 3
      ∧ (calculateSplayInterval (minuteEnv 0 0) (sampleCheck 60 0) 3).2 = none
      ∧ (calculateSplayInterval (minuteEnv 0 0) (sampleCheck 60 0) 3).1 = 18 * Second :=
  ⟨rfl, by simp [sampleCheck], by simp [sampleCheck], by decide,
    (calculateSplayInterval_value (minuteEnv 0 0) (sampleCheck 60 0) 3 rfl
      (by simp [sampleCheck]) (by simp [sampleCheck]) (by decide)).1,
    (calculateSplayInterval_value (minuteEnv 0 0) (sampleCheck 60 0) 3 rfl
      (by simp [sampleCheck]) (by simp [sampleCheck]) (by decide)).2.2.2.2 rfl rfl rfl⟩

/-- C3 fails as stated: with interval 1 s, coverage 15 and 3 entities the
exact product `10^9 * ((15 / 100) / 3)` is 50000000 ns, a whole number, and
the program returns 49999999 ns. -/
theorem calculateSplayInterval_not_exact :
    (sampleCheck 1 15).Cron = "" ∧ (1 : ℤ) ≤ 3
      ∧ exactProduct (sampleCheck 1 15) 3 = 50000000
      ∧ exactSplay 1 15 3 = 50000000
      ∧ calculateSplayInterval (minuteEnv 0 0) (sampleCheck 1 15) 3 = (49999999, none)
      ∧ (calculateSplayInterval (minuteEnv 0 0) (sampleCheck 1 15) 3).1 ≠ exactSplay 1 15 3 := by
  have e1 : exactProduct (sampleCheck 1 15) 3 = 50000000 := by
    norm_num [exactProduct, sampleCheck, coverageOrDefault, Second]
  have e2 : exactSplay 1 15 3 = 50000000 := by
    unfold exactSplay
    apply truncate_eq_of <;> norm_num [coverageOrDefault, Second]
  have e3 : calculateSplayInterval (minuteEnv 0 0) (sampleCheck 1 15) 3 = (49999999, none) := by
    rw [sample_period 1 1000000000 (by norm_num [Second]), splayOf_1_15_3]
  refine ⟨rfl, by decide, e1, e2, e3, ?_⟩
  rw [e2, e3]
  decide

theorem splayPeriod_withCoverage (env : Env Schedule) (check : CheckConfig) (c : ℕ) :
    splayPeriod env (withCoverage check c) = splayPeriod env check := rfl

/-- C4, as the code has it: a splay coverage of 0 selects the default
coverage, so that the result is the one of the same check with coverage 90. -/
theorem calculateSplayInterval_zero_coverage (env : Env Schedule) (check : CheckConfig) (n : ℤ) :
    calculateSplayInterval env (withCoverage check 0) n
      = calculateSplayInterval env (withCoverage check 90) n := by
  unfold calculateSplayInterval
  rw [splayPeriod_withCoverage, splayPeriod_withCoverage]
  have h : ∀ next, splayOf env.unspecified 0 next n = splayOf env.unspecified 90 next n := by
    intro next
    have e : coverageOrDefault 0 = coverageOrDefault 90 := by
      simp [coverageOrDefault, DefaultSplayCoverage]
    unfold splayOf
    simp only [selected_coverage (c := 0) (by norm_num),
      selected_coverage (c := 90) (by norm_num), e]
  cases splayPeriod env check with
  | error err => rfl
  | ok next => exact congrArg (fun d => (d, none)) (h next)

/-- C4 fails as stated: with interval 60 s, coverage 0 and 3 entities the
delay is 18 s, not 0. -/
theorem calculateSplayInterval_zero_coverage_nonzero :
    (sampleCheck 60 0).ProxyRequests.SplayCoverage = 0 ∧ (1 : ℤ) ≤ 3
      ∧ (calculateSplayInterval (minuteEnv 0 0) (sampleCheck 60 0) 3).1 = 18000000000
      ∧ (calculateSplayInterval (minuteEnv 0 0) (sampleCheck 60 0) 3).1 ≠ 0 := by
  have e : calculateSplayInterval (minuteEnv 0 0) (sampleCheck 60 0) 3 = (18000000000, none) := by
    rw [sample_period 60 60000000000 (by norm_num [Second]), splayOf_60_0_3]
  rw [e]
  exact ⟨rfl, by decide, rfl, by decide⟩

end SplayValueClaims
section LinearityClaims

variable {Schedule : Type}

/-- Two integers within one and a factor `1 ± 2^-50` of `k * E` and of `E`
differ, the second taken `k` times, by at most `k + k * E * 2^-49`. -/
theorem near_linear_of_bounds {Dk D : ℤ} {E : ℚ} {k : ℕ} (hk : 1 ≤ k)
    (a1 : (k : ℚ) * E * (1 - 2 ^ (-50 : ℤ)) - 1 < (Dk : ℚ))
    (a2 : (Dk : ℚ) ≤ (k : ℚ) * E * (1 + 2 ^ (-50 : ℤ)))
    (b1 : E * (1 - 2 ^ (-50 : ℤ)) - 1 < (D : ℚ))
    (b2 : (D : ℚ) ≤ E * (1 + 2 ^ (-50 : ℤ))) :
    |(Dk : ℚ) - (k : ℚ) * D| ≤ (k : ℚ) + (k : ℚ) * E * 2 ^ (-49 : ℤ) := by
  have hk' : (1 : ℚ) ≤ k := by exact_mod_cast hk
  have e49 : (2 : ℚ) ^ (-49 : ℤ) = 2 * 2 ^ (-50 : ℤ) := by norm_num
  have c1 : (k : ℚ) * (E * (1 - 2 ^ (-50 : ℤ)) - 1) ≤ (k : ℚ) * D :=
    mul_le_mul_of_nonneg_left b1.le (by linarith)
  have c2 : (k : ℚ) * D ≤ (k : ℚ) * (E * (1 + 2 ^ (-50 : ℤ))) :=
    mul_le_mul_of_nonneg_left b2 (by linarith)
  rw [abs_le, e49]
  constructor <;> nlinarith

/-- C10, as the code has it: for an interval-based check with a coverage of
at most 100 and at least one entity, the delay is linear in the interval and
in the coverage up to rounding: multiplying the interval by `k` (the product a
`uint32`), or a coverage of at least 1 by `k ≥ 1` (the product at most 100),
gives a delay that differs from `k` times the delay by at most
`k + k * E * 2^-49` nanoseconds, `E` being the exact product; an interval
multiplied by 0 gives the delay 0. -/
theorem calculateSplayInterval_near_linear (env : Env Schedule) (check : CheckConfig) (n : ℤ)
    (k : ℕ) (hcron : check.Cron = "") (hc : check.ProxyRequests.SplayCoverage ≤ 100)
    (hn : 1 ≤ n) :
    (k * check.Interval < 2 ^ 32 →
        |((calculateSplayInterval env (withInterval check (k * check.Interval)) n).1 : ℚ)
            - (k : ℚ) * (calculateSplayInterval env check n).1|
          ≤ (k : ℚ) + (k : ℚ) * exactProduct check n * 2 ^ (-49 : ℤ))
      ∧ (1 ≤ k → 1 ≤ check.ProxyRequests.SplayCoverage →
          k * check.ProxyRequests.SplayCoverage ≤ 100 → check.Interval < 2 ^ 32 →
        |((calculateSplayInterval env
              (withCoverage check (k * check.ProxyRequests.SplayCoverage)) n).1 : ℚ)
            - (k : ℚ) * (calculateSplayInterval env check n).1|
          ≤ (k : ℚ) + (k : ℚ) * exactProduct check n * 2 ^ (-49 : ℤ))
      ∧ (calculateSplayInterval env (withInterval check (0 * check.Interval)) n).1 = 0 := by
  have hI : ∀ i : ℕ, calculateSplayInterval env (withInterval check i) n
      = (splayOf env.unspecified check.ProxyRequests.SplayCoverage (Second * (i : ℤ)) n, none) :=
    fun i => calculateSplayInterval_interval env (withInterval check i) n hcron
  have hC : ∀ c : ℕ, calculateSplayInterval env (withCoverage check c) n
      = (splayOf env.unspecified c (Second * (check.Interval : ℤ)) n, none) :=
    fun c => calculateSplayInterval_interval env (withCoverage check c) n hcron
  have zero_case :
      (calculateSplayInterval env (withInterval check (0 * check.Interval)) n).1 = 0 := by
    rw [hI]
    have z0 : (0 : ℤ) ≤ Second * ((0 : ℕ) : ℤ) := by norm_num
    have z62 : Second * ((0 : ℕ) : ℤ) ≤ 2 ^ 62 := by norm_num
    obtain ⟨z1, z2⟩ := splayOf_near_exact env.unspecified hc z0 z62 hn
    simp only [Nat.zero_mul]
    have y1 : (-1 : ℚ) < (splayOf env.unspecified check.ProxyRequests.SplayCoverage
        (Second * ((0 : ℕ) : ℤ)) n : ℚ) := by
      simpa using z1
    have y2 : (splayOf env.unspecified check.ProxyRequests.SplayCoverage
        (Second * ((0 : ℕ) : ℤ)) n : ℚ) ≤ 0 := by
      simpa using z2
    have y1' : -1 < splayOf env.unspecified check.ProxyRequests.SplayCoverage
        (Second * ((0 : ℕ) : ℤ)) n := by exact_mod_cast y1
    have y2' : splayOf env.unspecified check.ProxyRequests.SplayCoverage
        (Second * ((0 : ℕ) : ℤ)) n ≤ 0 := by exact_mod_cast y2
    omega
  refine ⟨?_, ?_, zero_case⟩
  · intro hki
    rcases Nat.eq_zero_or_pos k with h0 | hk
    · subst h0
      rw [zero_case]
      simp
    · have hi : check.Interval < 2 ^ 32 :=
        lt_of_le_of_lt (Nat.le_mul_of_pos_left _ hk) hki
      obtain ⟨x0, x1⟩ := interval_period_bounds hi
      obtain ⟨kx0, kx1⟩ := interval_period_bounds hki
      obtain ⟨b1, b2⟩ := splayOf_near_exact env.unspecified hc x0 x1 hn
      obtain ⟨a1, a2⟩ := splayOf_near_exact env.unspecified hc kx0 kx1 hn
      rw [hI, calculateSplayInterval_interval env check n hcron]
      have e : ((Second * ((k * check.Interval : ℕ) : ℤ) : ℤ) : ℚ)
            * (coverageOrDefault check.ProxyRequests.SplayCoverage / 100 / n)
          = (k : ℚ) * exactProduct check n := by
        unfold exactProduct; push_cast; ring
      rw [e] at a1 a2
      exact near_linear_of_bounds hk a1 a2 b1 b2
  · intro hk hc1 hkc hi
    obtain ⟨x0, x1⟩ := interval_period_bounds hi
    obtain ⟨b1, b2⟩ := splayOf_near_exact env.unspecified hc x0 x1 hn
    obtain ⟨a1, a2⟩ := splayOf_near_exact env.unspecified hkc x0 x1 hn
    rw [hC, calculateSplayInterval_interval env check n hcron]
    have c1 : coverageOrDefault check.ProxyRequests.SplayCoverage
        = (check.ProxyRequests.SplayCoverage : ℚ) := by
      unfold coverageOrDefault; rw [if_neg (by omega)]
    have c2 : coverageOrDefault (k * check.ProxyRequests.SplayCoverage)
        = (k : ℚ) * (check.ProxyRequests.SplayCoverage : ℚ) := by
      unfold coverageOrDefault
      rw [if_neg (Nat.mul_ne_zero (by omega) (by omega))]
      push_cast; ring
    have e : ((Second * (check.Interval : ℤ) : ℤ) : ℚ)
          * (coverageOrDefault (k * check.ProxyRequests.SplayCoverage) / 100 / n)
        = (k : ℚ) * exactProduct check n := by
      unfold exactProduct; rw [c1, c2]; ring
    rw [e] at a1 a2
    exact near_linear_of_bounds hk a1 a2 b1 b2

end LinearityClaims
section LinearityWitnesses

/-- The statement of C10 as the code has it, at interval 1 s, coverage 1, 3
entities and the factor 3. -/
theorem calculateSplayInterval_near_linear_witness :
    (sampleCheck 1 1).Cron = "" ∧ (sampleCheck 1 1).ProxyRequests.SplayCoverage ≤ 100
      ∧ (1 : ℤ) ≤ 3 ∧ 3 * (sampleCheck 1 1).Interval < 2 ^ 32
      ∧ |((calculateSplayInterval (minuteEnv 0 0)
              (withInterval (sampleCheck 1 1) (3 * (sampleCheck 1 1).Interval)) 3).1 : ℚ)
            - ((3 : ℕ) : ℚ) * (calculateSplayInterval (minuteEnv 0 0) (sampleCheck 1 1) 3).1|
          ≤ ((3 : ℕ) : ℚ) + ((3 : ℕ) : ℚ) * exactProduct (sampleCheck 1 1) 3 * 2 ^ (-49 : ℤ)
      ∧ 1 ≤ 3 ∧ 1 ≤ (sampleCheck 1 1).ProxyRequests.SplayCoverage
      ∧ 3 * (sampleCheck 1 1).ProxyRequests.SplayCoverage ≤ 100
      ∧ (sampleCheck 1 1).Interval < 2 ^ 32
      ∧ |((calculateSplayInterval (minuteEnv 0 0)
              (withCoverage (sampleCheck 1 1)
                (3 * (sampleCheck 1 1).ProxyRequests.SplayCoverage)) 3).1 : ℚ)
            - ((3 : ℕ) : ℚ) * (calculateSplayInterval (minuteEnv 0 0) (sampleCheck 1 1) 3).1|
          ≤ ((3 : ℕ) : ℚ) + ((3 : ℕ) : ℚ) * exactProduct (sampleCheck 1 1) 3 * 2 ^ (-49 : ℤ) :=
  ⟨rfl, by simp [sampleCheck], by decide, by simp [sampleCheck],
    (calculateSplayInterval_near_linear (minuteEnv 0 0) (sampleCheck 1 1) 3 3 rfl
      (by simp [sampleCheck]) (by decide)).1 (by simp [sampleCheck]),
    by decide, by simp [sampleCheck], by simp [sampleCheck], by simp [sampleCheck],
    (calculateSplayInterval_near_linear (minuteEnv 0 0) (sampleCheck 1 1) 3 3 rfl
      (by simp [sampleCheck]) (by decide)).2.1 (by decide) (by simp [sampleCheck])
      (by simp [sampleCheck]) (by simp [sampleCheck])⟩

/-- C10 fails as stated: with 3 entities, tripling the interval of 1 s at
coverage 1, or the coverage 1 at interval 1 s, gives 10000000 ns and not three
times 3333333 ns; and multiplying the coverage 50 by 0 at interval 60 s gives
18 s and not 0 times the delay. -/
theorem calculateSplayInterval_not_linear :
    (calculateSplayInterval (minuteEnv 0 0) (withInterval (sampleCheck 1 1) (3 * 1)) 3).1
        ≠ 3 * (calculateSplayInterval (minuteEnv 0 0) (sampleCheck 1 1) 3).1
      ∧ (calculateSplayInterval (minuteEnv 0 0) (withCoverage (sampleCheck 1 1) (3 * 1)) 3).1
        ≠ 3 * (calculateSplayInterval (minuteEnv 0 0) (sampleCheck 1 1) 3).1
      ∧ (calculateSplayInterval (minuteEnv 0 0) (withCoverage (sampleCheck 60 50) (0 * 50)) 3).1
        ≠ 0 * (calculateSplayInterval (minuteEnv 0 0) (sampleCheck 60 50) 3).1 := by
  have e1 : calculateSplayInterval (minuteEnv 0 0) (sampleCheck 1 1) 3 = (3333333, none) := by
    rw [sample_period 1 1000000000 (by norm_num [Second]), splayOf_1_1_3]
  have e2 : calculateSplayInterval (minuteEnv 0 0) (withInterval (sampleCheck 1 1) (3 * 1)) 3
      = (10000000, none) := by
    have : withInterval (sampleCheck 1 1) (3 * 1) = sampleCheck 3 1 := rfl
    rw [this, sample_period 3 3000000000 (by norm_num [Second]), splayOf_3_1_3]
  have e3 : calculateSplayInterval (minuteEnv 0 0) (withCoverage (sampleCheck 1 1) (3 * 1)) 3
      = (10000000, none) := by
    have : withCoverage (sampleCheck 1 1) (3 * 1) = sampleCheck 1 3 := rfl
    rw [this, sample_period 1 1000000000 (by norm_num [Second]), splayOf_1_3_3]
  have e4 : calculateSplayInterval (minuteEnv 0 0) (withCoverage (sampleCheck 60 50) (0 * 50)) 3
      = (18000000000, none) := by
    have : withCoverage (sampleCheck 60 50) (0 * 50) = sampleCheck 60 0 := rfl
    rw [this, sample_period 60 60000000000 (by norm_num [Second]), splayOf_60_0_3]
  rw [e1, e2, e3, e4]
  exact ⟨by decide, by decide, by rw [zero_mul]; decide⟩

end LinearityWitnesses

section CronClaims

variable {Schedule : Type}

theorem timeSub_eq {t u : ℤ} (h1 : minDuration ≤ t - u) (h2 : t - u ≤ maxDuration) :
    timeSub t u = t - u := by
  unfold timeSub
  simp only
  rw [if_neg (by omega), if_neg (by omega)]

/-- The next whole minute is later than `t`, by a minute at most. -/
theorem everyMinuteNext_bounds (t : ℤ) :
    t < everyMinuteNext t ∧ everyMinuteNext t ≤ t + 60000000000 := by
  unfold everyMinuteNext Second
  constructor <;> omega

/-- From less than a minute after a trigger, the next trigger is a minute
after that trigger. -/
theorem everyMinuteNext_shift (t x : ℤ) (h0 : 0 ≤ x) (h1 : x < 60000000000) :
    everyMinuteNext (everyMinuteNext t + x) = everyMinuteNext t + 60000000000 := by
  unfold everyMinuteNext Second
  omega

/-- C9, as the code has it: for the cron expression `* * * * *`, when the
next trigger first computed is less than 5 seconds away and the second read of
the clock is not before the first and at most 4 seconds after it, the function
recomputes from the base `Now 1 + (next + 1 s)`, the period it then uses is 59
seconds less the time between the two reads, hence at least 55 seconds, and
exactly 59 seconds from a base 1 second past the trigger when both reads
return the same instant; the returned delay is the truncated `float64`
product of that period and the time slice. -/
theorem calculateSplayInterval_every_minute (env : Env Schedule) (check : CheckConfig) (n : ℤ)
    (s : Schedule) (hcron : check.Cron = "* * * * *")
    (hparse : env.ParseStandard "* * * * *" = Except.ok s)
    (hnext : ∀ t, env.Next s t = everyMinuteNext t)
    (hsoon : env.Next s (env.Now 0) - env.Now 0 < 5 * Second)
    (h0 : env.Now 0 ≤ env.Now 1) (h4 : env.Now 1 ≤ env.Now 0 + 4 * Second) :
    ∃ base period : ℤ,
      base = env.Now 1 + (env.Next s (env.Now 0) - env.Now 0 + Second)
      ∧ period = env.Next s base - base
      ∧ splayPeriod env check = Except.ok period
      ∧ period = 59 * Second - (env.Now 1 - env.Now 0)
      ∧ 55 * Second ≤ period
      ∧ (env.Now 1 = env.Now 0 →
          base = env.Next s (env.Now 0) + Second ∧ period = 59 * Second)
      ∧ calculateSplayInterval env check n
          = (splayOf env.unspecified check.ProxyRequests.SplayCoverage period n, none)
      ∧ (1 ≤ n → check.ProxyRequests.SplayCoverage ≤ 100 →
          (calculateSplayInterval env check n).1
            = truncate (f64Mul (f64OfInt period)
                (f64Div (f64Div (coverageOrDefault check.ProxyRequests.SplayCoverage) 100)
                  (f64OfInt n)))) := by
  obtain ⟨b1, b2⟩ := everyMinuteNext_bounds (env.Now 0)
  have hsoon' : everyMinuteNext (env.Now 0) - env.Now 0 < 5000000000 := by
    have := hsoon
    rw [hnext] at this
    unfold Second at this
    omega
  have h4' : env.Now 1 ≤ env.Now 0 + 4000000000 := by
    unfold Second at h4; omega
  have t1 : timeSub (everyMinuteNext (env.Now 0)) (env.Now 0)
      = everyMinuteNext (env.Now 0) - env.Now 0 :=
    timeSub_eq (by unfold minDuration; omega) (by unfold maxDuration; omega)
  have hbase : env.Now 1 + (everyMinuteNext (env.Now 0) - env.Now 0 + Second)
      = everyMinuteNext (env.Now 0) + (1000000000 + (env.Now 1 - env.Now 0)) := by
    unfold Second; ring
  have hshift := everyMinuteNext_shift (env.Now 0) (1000000000 + (env.Now 1 - env.Now 0))
    (by omega) (by omega)
  have t2 : timeSub
        (everyMinuteNext (env.Now 1 + (everyMinuteNext (env.Now 0) - env.Now 0 + Second)))
        (env.Now 1 + (everyMinuteNext (env.Now 0) - env.Now 0 + Second))
      = 59 * Second - (env.Now 1 - env.Now 0) := by
    rw [hbase, hshift, timeSub_eq (by unfold minDuration; omega) (by unfold maxDuration; omega)]
    unfold Second; ring
  have hperiod : splayPeriod env check = Except.ok (59 * Second - (env.Now 1 - env.Now 0)) := by
    unfold splayPeriod
    simp only [hcron, hparse, hnext, t1, t2]
    have : everyMinuteNext (env.Now 0) - env.Now 0 < 5 * Second := by unfold Second; omega
    simp [this]
  have hcalc : calculateSplayInterval env check n
      = (splayOf env.unspecified check.ProxyRequests.SplayCoverage
          (59 * Second - (env.Now 1 - env.Now 0)) n, none) := by
    unfold calculateSplayInterval
    rw [hperiod]
  refine ⟨env.Now 1 + (env.Next s (env.Now 0) - env.Now 0 + Second),
    59 * Second - (env.Now 1 - env.Now 0), rfl, ?_, hperiod, rfl, ?_, ?_, hcalc, ?_⟩
  · rw [hnext, hnext, hbase, hshift]
    unfold Second; ring
  · unfold Second; omega
  · intro heq
    rw [heq]
    constructor <;> ring
  · intro hn hc
    rw [hcalc]
    simp only
    have p0 : 0 ≤ 59 * Second - (env.Now 1 - env.Now 0) := by unfold Second; omega
    have p1 : 59 * Second - (env.Now 1 - env.Now 0) ≤ 2 ^ 62 := by unfold Second; omega
    rw [splayOf_floor _ hc p0 p1 hn, truncate_of_nonneg]
    · rfl
    · exact (splayProduct_bounds (coverageOrDefault_pos _).le (coverageOrDefault_le hc) p0 p1
        hn).1

/-- The statement of C9 as the code has it, at a first read of the clock 57 s
into a minute and a second read one second later: the period is 58 s. -/
theorem calculateSplayInterval_every_minute_witness :
    (cronCheck "* * * * *").Cron = "* * * * *"
      ∧ (minuteEnv 57000000000 58000000000).ParseStandard "* * * * *" = Except.ok ()
      ∧ (∀ t, (minuteEnv 57000000000 58000000000).Next () t = everyMinuteNext t)
      ∧ (minuteEnv 57000000000 58000000000).Next () ((minuteEnv 57000000000 58000000000).Now 0)
          - (minuteEnv 57000000000 58000000000).Now 0 < 5 * Second
      ∧ (minuteEnv 57000000000 58000000000).Now 0 ≤ (minuteEnv 57000000000 58000000000).Now 1
      ∧ (minuteEnv 57000000000 58000000000).Now 1
          ≤ (minuteEnv 57000000000 58000000000).Now 0 + 4 * Second
      ∧ splayPeriod (minuteEnv 57000000000 58000000000) (cronCheck "* * * * *")
          = Except.ok (58 * Second) := by
  have a1 : (minuteEnv 57000000000 58000000000).ParseStandard "* * * * *" = Except.ok () := by
    simp [minuteEnv]
  have a2 : ∀ t, (minuteEnv 57000000000 58000000000).Next () t = everyMinuteNext t :=
    fun _ => rfl
  have a3 : (minuteEnv 57000000000 58000000000).Next ()
        ((minuteEnv 57000000000 58000000000).Now 0)
      - (minuteEnv 57000000000 58000000000).Now 0 < 5 * Second := by
    simp [minuteEnv, everyMinuteNext, Second]
  have a4 : (minuteEnv 57000000000 58000000000).Now 0
      ≤ (minuteEnv 57000000000 58000000000).Now 1 := by
    simp [minuteEnv]
  have a5 : (minuteEnv 57000000000 58000000000).Now 1
      ≤ (minuteEnv 57000000000 58000000000).Now 0 + 4 * Second := by
    simp [minuteEnv, Second]
  obtain ⟨base, period, _, _, hp, hform, _⟩ :=
    calculateSplayInterval_every_minute (minuteEnv 57000000000 58000000000)
      (cronCheck "* * * * *") 3 () rfl a1 a2 a3 a4 a5
  refine ⟨rfl, a1, a2, a3, a4, a5, ?_⟩
  rw [hp, hform]
  simp [minuteEnv, Second]

/-- C9 fails as stated: with a first read of the clock 57 s into a minute,
the next trigger is 3 s away; with a second read 58 s after the first, the
base is 119 s and the period then used is 1 s, below 5 s; with a second read
5 s after the first, the period then used is 54 s, below 55 s. -/
theorem calculateSplayInterval_every_minute_short :
    (minuteEnv 57000000000 115000000000).ParseStandard (cronCheck "* * * * *").Cron
        = Except.ok ()
      ∧ timeSub ((minuteEnv 57000000000 115000000000).Next ()
            ((minuteEnv 57000000000 115000000000).Now 0))
          ((minuteEnv 57000000000 115000000000).Now 0) = 3 * Second
      ∧ 3 * Second < 5 * Second
      ∧ splayPeriod (minuteEnv 57000000000 115000000000) (cronCheck "* * * * *")
          = Except.ok (1 * Second)
      ∧ 1 * Second < 5 * Second
      ∧ splayPeriod (minuteEnv 57000000000 62000000000) (cronCheck "* * * * *")
          = Except.ok (54 * Second)
      ∧ 54 * Second < 55 * Second := by
  refine ⟨by simp [minuteEnv, cronCheck], ?_, by decide, ?_, by decide, ?_, by decide⟩
  · simp [minuteEnv, everyMinuteNext, timeSub, Second, minDuration, maxDuration]
  · simp [splayPeriod, minuteEnv, cronCheck, everyMinuteNext, timeSub, Second, minDuration,
      maxDuration]
  · simp [splayPeriod, minuteEnv, cronCheck, everyMinuteNext, timeSub, Second, minDuration,
      maxDuration]

end CronClaims
end Schedulerd
